import Mathlib

/-!
# Module status bookkeeping of `$mmCourse`

A shallow embedding of the status functions of
`www/core/components/course/services/course.js`
(`getModuleStatus`, `isModuleOutdated`, `storeModuleStatus`) together with the
per-site object store `course_modules` they read and write, of the watermark
extraction (`getRevisionFromContents`, `getTimemodifiedFromContents`) and of
the lookups on the remote site (`getModule`, `getSection`, `invalidateModule`).

JavaScript numbers are embedded as `Int` (the documented type of `id`,
`revision` and `timemodified` is `Number`; negative values are ordinary
numbers). The integers that are values of a Number are those of
`isNumberValue`; their string conversion is `numberToString`. An optional argument is an `Option Int`, `none` standing for an
argument the caller left out. Promises are embedded by their settled outcome,
and the state of all site databases is passed explicitly: every operation
returns its outcome together with the state it leaves behind.
-/

namespace MmCourse

/-! ## Data model -/

/-- Modelled from the spec: the status vocabulary of the download subsystem
(`$mmFilepool.FILENOTDOWNLOADED`, `FILEDOWNLOADING`, `FILEDOWNLOADED`,
`FILEOUTDATED`), a closed set of four values. -/
inductive Status where
  | FILENOTDOWNLOADED
  | FILEDOWNLOADING
  | FILEDOWNLOADED
  | FILEOUTDATED
deriving DecidableEq, Repr

/-- One entry of the `course_modules` store: the object literal written by
`storeModuleStatus` (fields `id`, `status`, `revision`, `timemodified`,
`updated`). -/
structure ModuleRecord where
  id : Int
  status : Status
  revision : Int
  timemodified : Int
  updated : Int
deriving DecidableEq, Repr

/-- Settled outcome of a promise: resolved with a value, or rejected with a
reason (`none` is a rejection without a reason). -/
inductive Promise (α : Type) where
  | resolved (value : α)
  | rejected (reason : Option String)
deriving DecidableEq, Repr

/-- Contents of one site's `course_modules` store. The store is registered with
`keyPath: 'id'`, so a record is filed under its own `id` field. -/
abbrev Db := List ModuleRecord

/-- Modelled from the spec: `db.get(store, id)` of the per-site persistence
layer. It yields the record filed under `id`, and `none` (the promise is
rejected, "NotFound") when there is none. -/
def dbGet (db : Db) (id : Int) : Option ModuleRecord :=
  db.find? (fun r => decide (r.id = id))

/-- Modelled from the spec: `db.insert(store, record)` of the per-site
persistence layer, an upsert by key: the record filed under `record.id` is
replaced as a whole, and the record is added when there was none. -/
def dbInsert : Db → ModuleRecord → Db
  | [], r => [r]
  | x :: xs, r => if x.id = r.id then r :: xs else x :: dbInsert xs r

/-- State of the sites manager: for every site id, the outcome of
`$mmSitesManager.getSite(siteId)` followed by `site.getDb()`: the site's
database, or the rejection of the lookup. -/
abbrev Sites := String → Promise Db

/-- The state in which the database of site `siteId` is `db`, every other site
being as in `sites`. -/
def setDb (sites : Sites) (siteId : String) (db : Db) : Sites :=
  fun s => if s = siteId then Promise.resolved db else sites s

/-- Candidate defaulting, `x = x || 0`: a missing argument and `0` both
give `0`, every other number is kept. -/
def orZero (x : Option Int) : Int :=
  match x with
  | none => 0
  | some n => if n = 0 then 0 else n

/-! ## Operations -/

/-- Embedding of `self.getModuleStatus(siteId, id, revision, timemodified)`:
the outcome of the returned promise and the state afterwards. The
`db.insert` the source issues on the outdated transition is taken to have
completed when the status is reported. -/
def getModuleStatus (sites : Sites) (siteId : String) (id : Int)
    (revision timemodified : Option Int) : Promise Status × Sites :=
  let revision := orZero revision
  let timemodified := orZero timemodified
  match sites siteId with
  | Promise.rejected e => (Promise.rejected e, sites)
  | Promise.resolved db =>
    match dbGet db id with
    | some module =>
      if module.status = Status.FILEDOWNLOADED then
        if revision > module.revision ∨ timemodified > module.timemodified then
          -- File is outdated. Let's change its status.
          let module := { module with status := Status.FILEOUTDATED }
          (Promise.resolved module.status, setDb sites siteId (dbInsert db module))
        else
          (Promise.resolved module.status, sites)
      else
        (Promise.resolved module.status, sites)
    | none => (Promise.resolved Status.FILENOTDOWNLOADED, sites)

/-- Embedding of `self.isModuleOutdated(siteId, id, revision, timemodified)`:
the outcome of the returned promise and the state afterwards. -/
def isModuleOutdated (sites : Sites) (siteId : String) (id : Int)
    (revision timemodified : Option Int) : Promise Bool × Sites :=
  let revision := orZero revision
  let timemodified := orZero timemodified
  match sites siteId with
  | Promise.rejected e => (Promise.rejected e, sites)
  | Promise.resolved db =>
    match dbGet db id with
    | some module =>
      (Promise.resolved
        (decide (revision > module.revision ∨ timemodified > module.timemodified)), sites)
    | none => (Promise.resolved false, sites)

/-- Embedding of `self.storeModuleStatus(siteId, id, status, revision,
timemodified)`; `now` is the value of `new Date().getTime()` at the call. -/
def storeModuleStatus (sites : Sites) (siteId : String) (id : Int) (status : Status)
    (revision timemodified : Option Int) (now : Int) : Promise Unit × Sites :=
  let revision := orZero revision
  let timemodified := orZero timemodified
  match sites siteId with
  | Promise.rejected e => (Promise.rejected e, sites)
  | Promise.resolved db =>
    (Promise.resolved (),
      setDb sites siteId
        (dbInsert db
          { id := id, status := status, revision := revision,
            timemodified := timemodified, updated := now }))

/-! ## Sample states -/

/-- The record of the spec's scenario: module 42, downloaded at revision 3,
modified at 1000. -/
def sampleRecord : ModuleRecord :=
  { id := 42, status := Status.FILEDOWNLOADED, revision := 3, timemodified := 1000,
    updated := 7 }

/-- A store holding `sampleRecord` next to a record of another module. -/
def sampleDb : Db :=
  [{ id := 7, status := Status.FILEOUTDATED, revision := 1, timemodified := 10, updated := 1 },
   sampleRecord]

/-- A sites manager that knows one site, `"site1"`, with store `db`. -/
def oneSite (db : Db) : Sites :=
  fun s => if s = "site1" then Promise.resolved db else Promise.rejected none

/-- A DOWNLOADED record of module 42 whose revision is negative. -/
def negativeRecord : ModuleRecord :=
  { id := 42, status := Status.FILEDOWNLOADED, revision := -1, timemodified := 500,
    updated := 7 }

/-- The record filed under `id` in the store of site `siteId`, if the site
is known and its store has one. -/
def recordOf (sites : Sites) (siteId : String) (id : Int) : Option ModuleRecord :=
  match sites siteId with
  | Promise.resolved db => dbGet db id
  | Promise.rejected _ => none

/-- The watermark part of a record: its key, revision and modification time. -/
def watermark (r : ModuleRecord) : Int × Int × Int :=
  (r.id, r.revision, r.timemodified)

/-- Apply a function to the value of a resolved promise. -/
def Promise.map {α β : Type} (f : α → β) : Promise α → Promise β
  | Promise.resolved a => Promise.resolved (f a)
  | Promise.rejected e => Promise.rejected e

/-! ## Content descriptors and watermark extraction -/

/-- One content-file descriptor of a module, reduced to the two fields the
extraction functions read; `none` is a field the descriptor does not have. -/
structure ContentFile where
  fileurl : Option String
  timemodified : Option Int
deriving DecidableEq, Repr

/-- The `for` loop of `getRevisionFromContents`, over the descriptors still to
visit. `getRevisionFromUrl` is `$mmFilepool.getRevisionFromUrl`, a helper of the
download subsystem; `none` is its result `undefined`. The test
`if (file.fileurl)` holds for a present, non-empty string. -/
def getRevisionFromContentsLoop (getRevisionFromUrl : String → Option Int) :
    List ContentFile → Int
  | [] => 0
  | file :: rest =>
    match file.fileurl with
    | some url =>
      if url ≠ "" then
        match getRevisionFromUrl url with
        | some revision => revision
        | none => getRevisionFromContentsLoop getRevisionFromUrl rest
      else getRevisionFromContentsLoop getRevisionFromUrl rest
    | none => getRevisionFromContentsLoop getRevisionFromUrl rest

/-- Embedding of `self.getRevisionFromContents(contents)`; `contents = none`
is a missing list. -/
def getRevisionFromContents (getRevisionFromUrl : String → Option Int)
    (contents : Option (List ContentFile)) : Int :=
  match contents with
  | some files =>
    if files.length ≠ 0 then getRevisionFromContentsLoop getRevisionFromUrl files else 0
  | none => 0

/-- The `for` loop of `getTimemodifiedFromContents`, over the descriptors
still to visit. The test `if (file.timemodified)` holds for a present number
other than `0`. -/
def getTimemodifiedFromContentsLoop : List ContentFile → Int
  | [] => 0
  | file :: rest =>
    match file.timemodified with
    | some t => if t ≠ 0 then t else getTimemodifiedFromContentsLoop rest
    | none => getTimemodifiedFromContentsLoop rest

/-- Embedding of `self.getTimemodifiedFromContents(contents)`; `contents = none`
is a missing list. -/
def getTimemodifiedFromContents (contents : Option (List ContentFile)) : Int :=
  match contents with
  | some files => if files.length ≠ 0 then getTimemodifiedFromContentsLoop files else 0
  | none => 0

/-- A descriptor has a fileurl exposing a version token `r`: its `fileurl` is a
present, non-empty string in which the helper finds the revision `r`. -/
def exposesRevision (getRevisionFromUrl : String → Option Int) (file : ContentFile)
    (r : Int) : Prop :=
  ∃ url, file.fileurl = some url ∧ url ≠ "" ∧ getRevisionFromUrl url = some r

/-- A helper that finds revision 3 in `"f/3/a"` and revision 9 in `"f/9/b"`,
and no revision elsewhere. -/
def sampleRevisionFromUrl (url : String) : Option Int :=
  if url = "f/3/a" then some 3 else if url = "f/9/b" then some 9 else none

/-! ## The remote site: course contents and the response cache -/

/-- A module of the course listing: its id and its name. -/
structure Module where
  id : Int
  name : String
deriving DecidableEq, Repr

/-- A section of the course listing: its id, its name and its modules. -/
structure Section where
  id : Int
  name : String
  modules : List Module
deriving DecidableEq, Repr

/-- One entry of the `options` array of a `core_course_get_contents` call. -/
structure WsOption where
  name : String
  value : Int
deriving DecidableEq, Repr

/-- The parameters object of a `core_course_get_contents` call. -/
structure WsParams where
  courseid : Int
  options : List WsOption
deriving DecidableEq, Repr

/-- The presets object of a `$mmSite.read` call; `none` is a property that is
not set. -/
structure PreSets where
  cacheKey : Option String
  getFromCache : Option Bool
deriving DecidableEq, Repr

/-- A call made on `$mmSite`, the remote site with its response cache. -/
inductive SiteCall where
  | read (wsFunction : String) (params : WsParams) (preSets : PreSets)
  | invalidateWsCacheForKey (key : String)
deriving DecidableEq, Repr

/-- The answers of `$mmSite`: the outcome of each `read` and of each
`invalidateWsCacheForKey`. -/
structure Site where
  read : String → WsParams → PreSets → Promise (List Section)
  invalidateWsCacheForKey : String → Promise Unit

/-- Number of binary digits of `v`; `fuel` bounds the number of halvings and
is enough when it is at least `v`. -/
def bitLength : Nat → Nat → Nat
  | 0, _ => 0
  | fuel + 1, v => if v = 0 then 0 else bitLength fuel (v / 2) + 1

/-- Binary exponent of a Number value `v` above `2 ^ 53`: `v` is its 53-bit
significand times `2 ^ binaryExponent v`. -/
def binaryExponent (v : Nat) : Nat := bitLength v v - 53

/-- The 53-bit significand of a Number value `v` above `2 ^ 53`. -/
def significand (v : Nat) : Nat := v / 2 ^ binaryExponent v

/-- Lower end of the rounding interval of `v`: half way to the next smaller
Number value, which is twice as close when `v` is a power of two. -/
def roundingLow (v : Nat) : Nat :=
  v - (if significand v = 2 ^ 52 then 2 ^ (binaryExponent v - 2)
       else 2 ^ (binaryExponent v - 1))

/-- Upper end of the rounding interval of `v`: half way to the next larger
Number value. -/
def roundingHigh (v : Nat) : Nat := v + 2 ^ (binaryExponent v - 1)

/-- Ties are rounded to the Number value with an even significand, so the ends
of the rounding interval belong to `v` exactly when its significand is even. -/
def roundsToEven (v : Nat) : Bool := decide (significand v % 2 = 0)

/-- The integer `c` is read as the Number value `v`. -/
def inRoundingInterval (v c : Nat) : Bool :=
  if roundsToEven v then decide (roundingLow v ≤ c ∧ c ≤ roundingHigh v)
  else decide (roundingLow v < c ∧ c < roundingHigh v)

/-- The integer with the fewest significant digits that is read as `v`,
searched among the multiples of `10 ^ p` from the largest `p` down: the first
`p` with a multiple in the rounding interval wins, the multiple closest to `v`
is taken, and on a tie the one with the even last digit. -/
def shortestFrom (v : Nat) : Nat → Nat
  | 0 => v
  | p + 1 =>
    let q := 10 ^ (p + 1)
    let below := v / q * q
    let above := below + q
    let okBelow := decide (below ≠ 0) && inRoundingInterval v below
    let okAbove := inRoundingInterval v above
    if okBelow && okAbove then
      if v - below < above - v then below
      else if above - v < v - below then above
      else if (below / q) % 2 = 0 then below else above
    else if okBelow then below
    else if okAbove then above
    else shortestFrom v p

/-- The shortest decimal of a Number value `v` above `2 ^ 53`. -/
def shortestDecimal (v : Nat) : Nat := shortestFrom v (Nat.toDigits 10 v).length

/-- A digit string without its trailing zeros. -/
def stripZeros (ds : List Char) : List Char :=
  (ds.reverse.dropWhile (fun d => d == '0')).reverse

/-- The significant digits in exponent notation: a point after the first
digit when more digits follow. -/
def mantissaChars : List Char → List Char
  | [] => []
  | [d] => [d]
  | d :: rest => d :: '.' :: rest

/-- The digits of `c` as JavaScript writes them: in full when `c` has at most
21 digits, otherwise the significant digits, `e+` and the decimal exponent. -/
def formatLarge (c : Nat) : String :=
  if (Nat.toDigits 10 c).length ≤ 21 then Nat.repr c
  else
    String.mk (mantissaChars (stripZeros (Nat.toDigits 10 c))
      ++ 'e' :: '+' :: Nat.toDigits 10 ((Nat.toDigits 10 c).length - 1))

/-- JavaScript string conversion of the Number whose value is the integer `n`
(what `'...' + n` appends). Up to magnitude `2 ^ 53` every integer is a Number
value and is written with its exact decimal digits. Above, the digits are those
of the shortest decimal that is read back as the same Number value, written in
full below `10 ^ 21` and in exponent notation from `10 ^ 21` on. -/
def numberToString (n : Int) : String :=
  if n.natAbs ≤ 2 ^ 53 then toString n
  else (if n < 0 then "-" else "") ++ formatLarge (shortestDecimal n.natAbs)

/-- The integer `n` is the value of a JavaScript Number: its magnitude is at
most `2 ^ 53`, or it is a 53-bit significand times a power of two within the
range of the Number type. -/
def isNumberValue (n : Int) : Bool :=
  decide (n.natAbs ≤ 2 ^ 53)
    || (decide (n.natAbs % 2 ^ binaryExponent n.natAbs = 0)
        && decide (bitLength n.natAbs n.natAbs ≤ 1024))

/-- String conversion of an optional number in a concatenation: a missing
value gives `"undefined"`, a number its `numberToString`. -/
def jsToString (x : Option Int) : String :=
  match x with
  | none => "undefined"
  | some n => numberToString n

/-- Embedding of `getModuleCacheKey(moduleid)`. -/
def getModuleCacheKey (moduleid : Option Int) : String :=
  "mmCourse:module:" ++ jsToString moduleid

/-- Reason of the rejection caused by reading `.id` of `undefined` inside a
`then` callback. -/
def typeErrorReason : Option String := some "TypeError"

/-- The inner loop `for (var j = 0; j < section.modules.length; j++)` of
`getModule`, over the iterations still to run. Every iteration reads
`section.modules[i]`, with the index `i` of the outer loop. The result is
`none` when the loop ends without returning. -/
def getModuleInner (moduleid : Int) (modules : List Module) (i : Nat) :
    List Module → Option (Promise Module)
  | [] => none
  | _ :: js =>
    match modules[i]? with
    | none => some (Promise.rejected typeErrorReason)
    | some module =>
      if module.id = moduleid then some (Promise.resolved module)
      else getModuleInner moduleid modules i js

/-- The outer loop `for (var i = 0; i < sections.length; i++)` of `getModule`,
at index `i` with the sections still to visit, followed by
`return $q.reject()`. -/
def getModuleOuter (moduleid : Int) : Nat → List Section → Promise Module
  | _, [] => Promise.rejected none
  | i, sect :: rest =>
    match getModuleInner moduleid sect.modules i sect.modules with
    | some outcome => outcome
    | none => getModuleOuter moduleid (i + 1) rest

/-- Embedding of `self.getModule(courseid, moduleid, sectionid)`: the outcome
of the returned promise and the calls made on the site. -/
def getModule (site : Site) (courseid : Int) (moduleid sectionid : Option Int) :
    Promise Module × List SiteCall :=
  match moduleid with
  | none => (Promise.rejected none, [])
  | some moduleid =>
    if moduleid = 0 then (Promise.rejected none, [])
    else
      let options : List WsOption := [{ name := "cmid", value := moduleid }]
      let preSets : PreSets :=
        { cacheKey := some (getModuleCacheKey (some moduleid)), getFromCache := none }
      let options : List WsOption :=
        match sectionid with
        | some sid =>
          if sid ≠ 0 then options ++ [{ name := "sectionid", value := sid }] else options
        | none => options
      let params : WsParams := { courseid := courseid, options := options }
      match site.read "core_course_get_contents" params preSets with
      | Promise.resolved sections =>
        (getModuleOuter moduleid 0 sections,
          [SiteCall.read "core_course_get_contents" params preSets])
      | Promise.rejected e =>
        (Promise.rejected e, [SiteCall.read "core_course_get_contents" params preSets])

/-- Embedding of `self.invalidateModule(moduleid)`: the outcome of the returned
promise and the calls made on the site. -/
def invalidateModule (site : Site) (moduleid : Option Int) : Promise Unit × List SiteCall :=
  (site.invalidateWsCacheForKey (getModuleCacheKey moduleid),
    [SiteCall.invalidateWsCacheForKey (getModuleCacheKey moduleid)])

/-- Embedding of `self.getSections(courseid, refresh)`: the outcome of the
returned promise and the calls made on the site. -/
def getSections (site : Site) (courseid : Int) (refresh : Bool) :
    Promise (List Section) × List SiteCall :=
  let presets : PreSets :=
    if refresh then { cacheKey := none, getFromCache := some false }
    else { cacheKey := none, getFromCache := none }
  let params : WsParams := { courseid := courseid, options := [] }
  (site.read "core_course_get_contents" params presets,
    [SiteCall.read "core_course_get_contents" params presets])

/-- The `for` loop of `getSection` over the sections still to visit, followed
by `deferred.reject('Unkown section')`. -/
def getSectionLoop (sectionid : Int) : List Section → Promise Section
  | [] => Promise.rejected (some "Unkown section")
  | sect :: rest =>
    if sect.id = sectionid then Promise.resolved sect else getSectionLoop sectionid rest

/-- Embedding of `self.getSection(courseid, sectionid, refresh)`: the outcome
of the returned promise and the calls made on the site. -/
def getSection (site : Site) (courseid : Int) (sectionid : Int) (refresh : Bool) :
    Promise Section × List SiteCall :=
  if sectionid < 0 then (Promise.rejected (some "Invalid section ID"), [])
  else
    match getSections site courseid refresh with
    | (Promise.resolved sections, calls) => (getSectionLoop sectionid sections, calls)
    | (Promise.rejected error, calls) => (Promise.rejected error, calls)

/-- A course listing of two sections: section 10 with modules 1 and 2,
section 20 with modules 3 and 4. -/
def sampleSections : List Section :=
  [{ id := 10, name := "General", modules :=
      [{ id := 1, name := "News" }, { id := 2, name := "Syllabus" }] },
   { id := 20, name := "Week 1", modules :=
      [{ id := 3, name := "Quiz" }, { id := 4, name := "Forum" }] }]

/-- A site that answers every `read` with `sections` and every invalidation
with success. -/
def siteWith (sections : List Section) : Site :=
  { read := fun _ _ _ => Promise.resolved sections,
    invalidateWsCacheForKey := fun _ => Promise.resolved () }

/-- A site whose `read` fails with reason `e`. -/
def failingSite (e : Option String) : Site :=
  { read := fun _ _ _ => Promise.rejected e,
    invalidateWsCacheForKey := fun _ => Promise.resolved () }

/-- Value of a list of decimal digit characters, most significant first. -/
def decimalValue (cs : List Char) : Nat :=
  cs.foldl (fun a c => 10 * a + (c.toNat - 48)) 0

/-- Value of a rendering without sign: the digits before an `e`, the point
left out, times the power of ten the exponent after the `e` asks for. -/
def parseRendering (cs : List Char) : Nat :=
  match cs.dropWhile (fun ch => ch != 'e') with
  | [] => decimalValue ((cs.takeWhile (fun ch => ch != 'e')).filter (fun ch => ch != '.'))
  | _ :: ex =>
    decimalValue ((cs.takeWhile (fun ch => ch != 'e')).filter (fun ch => ch != '.'))
      * 10 ^ (decimalValue ex + 1
          - ((cs.takeWhile (fun ch => ch != 'e')).filter (fun ch => ch != '.')).length)

/-- Value of a rendering with an optional leading minus sign. -/
def parseNumber (cs : List Char) : Int :=
  match cs with
  | '-' :: rest => - (parseRendering rest : Int)
  | _ => (parseRendering cs : Int)

/-- The integer whose digits `numberToString n` writes: `n` itself up to
magnitude `2 ^ 53`, the shortest decimal of `n` above. -/
def shortestValue (n : Int) : Int :=
  if n.natAbs ≤ 2 ^ 53 then n
  else if n < 0 then - (shortestDecimal n.natAbs : Int) else (shortestDecimal n.natAbs : Int)

/-- Following the spec's words for the last-modified extraction: the
explicit modification timestamp of the first descriptor, in list order, that
has the field, and `0` when no descriptor has it. -/
def firstExplicitTimemodified (files : List ContentFile) : Int :=
  (files.findSome? (fun file => file.timemodified)).getD 0

/-- A descriptor carries the non-zero modification timestamp `t`. -/
def carriesTimemodified (file : ContentFile) (t : Int) : Prop :=
  file.timemodified = some t ∧ t ≠ 0

/-- The call `getModule(courseid, moduleid)` makes on the site when no section
id is given. -/
def moduleRead (courseid moduleid : Int) : SiteCall :=
  SiteCall.read "core_course_get_contents"
    { courseid := courseid, options := [{ name := "cmid", value := moduleid }] }
    { cacheKey := some (getModuleCacheKey (some moduleid)), getFromCache := none }

/-- The call `getSections(courseid, refresh)` makes on the site. -/
def sectionsRead (courseid : Int) (refresh : Bool) : SiteCall :=
  SiteCall.read "core_course_get_contents" { courseid := courseid, options := [] }
    (if refresh then { cacheKey := none, getFromCache := some false }
     else { cacheKey := none, getFromCache := none })

/-! ## Facts about the store -/

theorem orZero_some (n : Int) : orZero (some n) = n := by
  by_cases h : n = 0
  · simp [orZero, h]
  · simp [orZero, h]

theorem orZero_none : orZero none = 0 := rfl

theorem dbGet_id {db : Db} {id : Int} {m : ModuleRecord} (h : dbGet db id = some m) :
    m.id = id := by
  have := List.find?_some h
  simpa using this

theorem dbGet_dbInsert_self (db : Db) (r : ModuleRecord) :
    dbGet (dbInsert db r) r.id = some r := by
  induction db with
  | nil => simp [dbInsert, dbGet]
  | cons x xs ih =>
    unfold dbInsert
    split_ifs with h
    · simp [dbGet]
    · have : dbGet (x :: dbInsert xs r) r.id = dbGet (dbInsert xs r) r.id := by
        simp [dbGet, List.find?_cons, h]
      rw [this, ih]

theorem dbGet_dbInsert_of_ne (db : Db) (r : ModuleRecord) (k : Int) (hk : k ≠ r.id) :
    dbGet (dbInsert db r) k = dbGet db k := by
  induction db with
  | nil =>
    have : ¬ r.id = k := fun h => hk h.symm
    simp [dbInsert, dbGet, this]
  | cons x xs ih =>
    unfold dbInsert
    split_ifs with h
    · have h1 : ¬ r.id = k := fun e => hk e.symm
      have h2 : ¬ x.id = k := fun e => hk (by rw [← e, h])
      simp [dbGet, List.find?_cons, h1, h2]
    · by_cases hx : x.id = k
      · simp [dbGet, List.find?_cons, hx]
      · have := ih
        simp only [dbGet] at this
        simp [dbGet, List.find?_cons, hx, this]

theorem setDb_same (sites : Sites) (siteId : String) (db : Db) :
    setDb sites siteId db siteId = Promise.resolved db := by
  simp [setDb]

theorem setDb_of_ne (sites : Sites) (siteId s : String) (db : Db) (h : s ≠ siteId) :
    setDb sites siteId db s = sites s := by
  simp [setDb, h]

theorem recordOf_setDb_same (sites : Sites) (siteId : String) (db : Db) (id : Int) :
    recordOf (setDb sites siteId db) siteId id = dbGet db id := by
  simp [recordOf, setDb]

/-- Replacing the record found under `id` by one with the same watermark
leaves the watermarks of the whole store as they were. -/
theorem map_watermark_dbInsert {db : Db} {id : Int} {m r : ModuleRecord}
    (hget : dbGet db id = some m) (hw : watermark r = watermark m) :
    (dbInsert db r).map watermark = db.map watermark := by
  have hid : r.id = id := by
    have h1 : r.id = m.id := congrArg Prod.fst hw
    rw [h1]; exact dbGet_id hget
  induction db with
  | nil => simp [dbGet] at hget
  | cons x xs ih =>
    unfold dbInsert
    by_cases hx : x.id = id
    · have hxm : x = m := by
        simpa [dbGet, List.find?_cons, hx] using hget
      have hmr : m.id = r.id := by rw [← hxm, hx, hid]
      subst hxm
      simp [hmr, hw]
    · have hne : ¬ x.id = r.id := by rw [hid]; exact hx
      have hget2 : dbGet xs id = some m := by
        simpa [dbGet, List.find?_cons, hx] using hget
      simp [hne, ih hget2]

/-- Replacing the record found under `id` touches no record of another
module. -/
theorem filter_ne_dbInsert {db : Db} {id : Int} {m r : ModuleRecord}
    (hget : dbGet db id = some m) (hid : r.id = id) :
    (dbInsert db r).filter (fun x => decide (x.id ≠ id))
      = db.filter (fun x => decide (x.id ≠ id)) := by
  induction db with
  | nil => simp [dbGet] at hget
  | cons x xs ih =>
    unfold dbInsert
    by_cases hx : x.id = id
    · have : x.id = r.id := by rw [hx, hid]
      simp [this, hx, hid]
    · have hne : ¬ x.id = r.id := by rw [hid]; exact hx
      have hget2 : dbGet xs id = some m := by
        simpa [dbGet, List.find?_cons, hx] using hget
      have ih2 := ih hget2
      simp only [ne_eq, decide_not] at ih2
      simp [hne, hx, ih2]

/-- Writing the same record twice leaves the store as after the first
write. -/
theorem dbInsert_dbInsert_self (db : Db) (r : ModuleRecord) :
    dbInsert (dbInsert db r) r = dbInsert db r := by
  induction db with
  | nil => simp [dbInsert]
  | cons x xs ih =>
    by_cases h : x.id = r.id
    · simp [dbInsert, h]
    · simp [dbInsert, h, ih]

/-- After `getModuleStatus` has resolved with OUTDATED, the store of the site
holds a record for the module and its status is OUTDATED. -/
theorem outdated_record_of_getModuleStatus (sites : Sites) (siteId : String) (id : Int)
    (revision timemodified : Option Int)
    (h : (getModuleStatus sites siteId id revision timemodified).1
      = Promise.resolved Status.FILEOUTDATED) :
    ∃ db m, (getModuleStatus sites siteId id revision timemodified).2 siteId
        = Promise.resolved db
      ∧ dbGet db id = some m ∧ m.status = Status.FILEOUTDATED := by
  cases hsite : sites siteId with
  | rejected e => simp [getModuleStatus, hsite] at h
  | resolved db =>
    cases hget : dbGet db id with
    | none => simp [getModuleStatus, hsite, hget] at h
    | some m =>
      have hid : m.id = id := dbGet_id hget
      by_cases hst : m.status = Status.FILEDOWNLOADED
      · by_cases hc : orZero revision > m.revision ∨ orZero timemodified > m.timemodified
        · refine ⟨dbInsert db { m with status := Status.FILEOUTDATED },
            { m with status := Status.FILEOUTDATED }, ?_, ?_, rfl⟩
          · simp only [getModuleStatus, hsite, hget, hst, if_true, if_pos hc, setDb_same]
          · have := dbGet_dbInsert_self db { m with status := Status.FILEOUTDATED }
            simpa [hid] using this
        · simp only [getModuleStatus, hsite, hget, hst, if_true, if_neg hc] at h
          simp at h
      · refine ⟨db, m, ?_, hget, ?_⟩
        · simp only [getModuleStatus, hsite, hget, if_neg hst]
        · simpa [getModuleStatus, hsite, hget, if_neg hst] using h

/-! ## The transition rule of `getModuleStatus` -/

/-- C1: when module `id` has a record whose status is DOWNLOADED and the
candidate revision exceeds the stored revision or the candidate timemodified
exceeds the stored timemodified, `getModuleStatus` resolves with OUTDATED and
the record filed under `id` afterwards is the stored one with its status set
to OUTDATED. -/
theorem getModuleStatus_downloaded_newer (sites : Sites) (siteId : String) (db : Db)
    (id : Int) (stored : ModuleRecord) (revision timemodified : Int)
    (hsite : sites siteId = Promise.resolved db)
    (hget : dbGet db id = some stored)
    (hstatus : stored.status = Status.FILEDOWNLOADED)
    (hnewer : revision > stored.revision ∨ timemodified > stored.timemodified) :
    (getModuleStatus sites siteId id (some revision) (some timemodified)).1
        = Promise.resolved Status.FILEOUTDATED
      ∧ recordOf (getModuleStatus sites siteId id (some revision) (some timemodified)).2
          siteId id = some { stored with status := Status.FILEOUTDATED }
      ∧ (recordOf (getModuleStatus sites siteId id (some revision) (some timemodified)).2
          siteId id).map ModuleRecord.status = some Status.FILEOUTDATED := by
  have hid : stored.id = id := dbGet_id hget
  have hrec : recordOf (getModuleStatus sites siteId id (some revision) (some timemodified)).2
      siteId id = some { stored with status := Status.FILEOUTDATED } := by
    simp only [getModuleStatus, hsite, hget, hstatus, orZero_some, if_true, if_pos hnewer]
    rw [recordOf_setDb_same]
    have := dbGet_dbInsert_self db { stored with status := Status.FILEOUTDATED }
    simpa [hid] using this
  refine ⟨?_, hrec, ?_⟩
  · simp only [getModuleStatus, hsite, hget, hstatus, orZero_some, if_true, if_pos hnewer]
  · rw [hrec]; rfl

/-- C1 at the spec's scenario: record (DOWNLOADED, revision 3, modified 1000),
candidate (4, 1000). -/
theorem getModuleStatus_downloaded_newer_witness :
    (getModuleStatus (oneSite sampleDb) "site1" 42 (some 4) (some 1000)).1
        = Promise.resolved Status.FILEOUTDATED
      ∧ recordOf (getModuleStatus (oneSite sampleDb) "site1" 42 (some 4) (some 1000)).2
          "site1" 42 = some { sampleRecord with status := Status.FILEOUTDATED }
      ∧ (recordOf (getModuleStatus (oneSite sampleDb) "site1" 42 (some 4) (some 1000)).2
          "site1" 42).map ModuleRecord.status = some Status.FILEOUTDATED :=
  getModuleStatus_downloaded_newer (oneSite sampleDb) "site1" sampleDb 42 sampleRecord 4 1000
    (by decide) (by decide) (by decide) (by decide)

/-- C2: when module `id` has a record whose status is DOWNLOADED and the
candidate revision and timemodified are both at most the stored ones,
`getModuleStatus` resolves with DOWNLOADED and writes nothing: the state after
the call is the state before it. -/
theorem getModuleStatus_downloaded_current (sites : Sites) (siteId : String) (db : Db)
    (id : Int) (stored : ModuleRecord) (revision timemodified : Int)
    (hsite : sites siteId = Promise.resolved db)
    (hget : dbGet db id = some stored)
    (hstatus : stored.status = Status.FILEDOWNLOADED)
    (hrev : revision ≤ stored.revision)
    (htime : timemodified ≤ stored.timemodified) :
    (getModuleStatus sites siteId id (some revision) (some timemodified)).1
        = Promise.resolved Status.FILEDOWNLOADED
      ∧ (getModuleStatus sites siteId id (some revision) (some timemodified)).2 = sites := by
  have hnot : ¬ (revision > stored.revision ∨ timemodified > stored.timemodified) := by
    omega
  simp only [getModuleStatus, hsite, hget, hstatus, orZero_some, if_true, if_neg hnot,
    and_self]

/-- C2 at the spec's scenario: record (DOWNLOADED, revision 3, modified 1000),
candidate (3, 1000). -/
theorem getModuleStatus_downloaded_current_witness :
    (getModuleStatus (oneSite sampleDb) "site1" 42 (some 3) (some 1000)).1
        = Promise.resolved Status.FILEDOWNLOADED
      ∧ (getModuleStatus (oneSite sampleDb) "site1" 42 (some 3) (some 1000)).2
        = oneSite sampleDb :=
  getModuleStatus_downloaded_current (oneSite sampleDb) "site1" sampleDb 42 sampleRecord 3 1000
    (by decide) (by decide) (by decide) (by decide) (by decide)

/-- C3: when the store has no record for module `id`, `getModuleStatus`
resolves with NOT_DOWNLOADED whatever the candidate revision and timemodified
(given or left out), and writes nothing: the state is unchanged and still has
no record for `id`. -/
theorem getModuleStatus_no_record (sites : Sites) (siteId : String) (db : Db)
    (id : Int) (revision timemodified : Option Int)
    (hsite : sites siteId = Promise.resolved db)
    (hget : dbGet db id = none) :
    (getModuleStatus sites siteId id revision timemodified).1
        = Promise.resolved Status.FILENOTDOWNLOADED
      ∧ (getModuleStatus sites siteId id revision timemodified).2 = sites
      ∧ recordOf (getModuleStatus sites siteId id revision timemodified).2 siteId id = none := by
  simp only [getModuleStatus, hsite, hget, recordOf, and_self]

/-- C3 at module 5 of the sample store, which has no record. -/
theorem getModuleStatus_no_record_witness :
    (getModuleStatus (oneSite sampleDb) "site1" 5 (some 9) (some 999)).1
        = Promise.resolved Status.FILENOTDOWNLOADED
      ∧ (getModuleStatus (oneSite sampleDb) "site1" 5 (some 9) (some 999)).2 = oneSite sampleDb
      ∧ recordOf (getModuleStatus (oneSite sampleDb) "site1" 5 (some 9) (some 999)).2
          "site1" 5 = none :=
  getModuleStatus_no_record (oneSite sampleDb) "site1" sampleDb 5 (some 9) (some 999)
    (by decide) (by decide)

/-- C4: when module `id` has a record whose status is not DOWNLOADED,
`getModuleStatus` resolves with exactly the stored status whatever the
candidate revision and timemodified (given or left out), and the state after
the call is the state before it. -/
theorem getModuleStatus_not_downloaded (sites : Sites) (siteId : String) (db : Db)
    (id : Int) (stored : ModuleRecord) (revision timemodified : Option Int)
    (hsite : sites siteId = Promise.resolved db)
    (hget : dbGet db id = some stored)
    (hstatus : stored.status ≠ Status.FILEDOWNLOADED) :
    (getModuleStatus sites siteId id revision timemodified).1
        = Promise.resolved stored.status
      ∧ (getModuleStatus sites siteId id revision timemodified).2 = sites := by
  simp only [getModuleStatus, hsite, hget, if_neg hstatus, and_self]

/-- C4 at module 7 of the sample store, whose record is OUTDATED, with a
candidate larger than the stored watermark. -/
theorem getModuleStatus_not_downloaded_witness :
    (getModuleStatus (oneSite sampleDb) "site1" 7 (some 50) (some 5000)).1
        = Promise.resolved Status.FILEOUTDATED
      ∧ (getModuleStatus (oneSite sampleDb) "site1" 7 (some 50) (some 5000)).2
        = oneSite sampleDb :=
  getModuleStatus_not_downloaded (oneSite sampleDb) "site1" sampleDb 7
    { id := 7, status := Status.FILEOUTDATED, revision := 1, timemodified := 10, updated := 1 }
    (some 50) (some 5000) (by decide) (by decide) (by decide)

/-- C5: when the store has no record for module `id`, `isModuleOutdated`
resolves with `false` whatever the candidate revision and timemodified
(given or left out). -/
theorem isModuleOutdated_no_record (sites : Sites) (siteId : String) (db : Db)
    (id : Int) (revision timemodified : Option Int)
    (hsite : sites siteId = Promise.resolved db)
    (hget : dbGet db id = none) :
    (isModuleOutdated sites siteId id revision timemodified).1 = Promise.resolved false := by
  simp only [isModuleOutdated, hsite, hget]

/-- C5 at the spec's scenario `isModuleOutdated(site, 42, 5, 999)` on a store
without a record for module 42. -/
theorem isModuleOutdated_no_record_witness :
    (isModuleOutdated (oneSite []) "site1" 42 (some 5) (some 999)).1
      = Promise.resolved false :=
  isModuleOutdated_no_record (oneSite []) "site1" [] 42 (some 5) (some 999)
    (by decide) (by decide)

/-! ## The boolean query and the frame of the evaluator -/

/-- C6: `isModuleOutdated` never writes (the state after the call is the state
before it, for every state and candidate), and on a record whose status is
DOWNLOADED it resolves with `true` exactly when `getModuleStatus`, called with
the same site, id, revision and timemodified on the same state, resolves with
OUTDATED. -/
theorem isModuleOutdated_same_comparison (sites : Sites) (siteId : String) (id : Int)
    (revision timemodified : Option Int) :
    (isModuleOutdated sites siteId id revision timemodified).2 = sites
      ∧ ∀ (db : Db) (stored : ModuleRecord),
          sites siteId = Promise.resolved db →
          dbGet db id = some stored →
          stored.status = Status.FILEDOWNLOADED →
          ((isModuleOutdated sites siteId id revision timemodified).1 = Promise.resolved true
            ↔ (getModuleStatus sites siteId id revision timemodified).1
                = Promise.resolved Status.FILEOUTDATED) := by
  constructor
  · cases hsite : sites siteId with
    | rejected e => simp only [isModuleOutdated, hsite]
    | resolved db =>
      cases hget : dbGet db id with
      | none => simp only [isModuleOutdated, hsite, hget]
      | some m => simp only [isModuleOutdated, hsite, hget]
  · intro db stored hsite hget hstatus
    by_cases hc : orZero revision > stored.revision ∨ orZero timemodified > stored.timemodified
    · simp [isModuleOutdated, getModuleStatus, hsite, hget, hstatus, hc]
    · simp [isModuleOutdated, getModuleStatus, hsite, hget, hstatus, hc]

/-- C6 at the sample record with candidate (4, 1000): no write, and both
sides of the equivalence hold. -/
theorem isModuleOutdated_same_comparison_witness :
    (isModuleOutdated (oneSite sampleDb) "site1" 42 (some 4) (some 1000)).2 = oneSite sampleDb
      ∧ ((isModuleOutdated (oneSite sampleDb) "site1" 42 (some 4) (some 1000)).1
            = Promise.resolved true
          ↔ (getModuleStatus (oneSite sampleDb) "site1" 42 (some 4) (some 1000)).1
              = Promise.resolved Status.FILEOUTDATED) :=
  ⟨(isModuleOutdated_same_comparison (oneSite sampleDb) "site1" 42 (some 4) (some 1000)).1,
   (isModuleOutdated_same_comparison (oneSite sampleDb) "site1" 42 (some 4) (some 1000)).2
      sampleDb sampleRecord (by decide) (by decide) (by decide)⟩

/-- C7: `getModuleStatus` never changes a watermark. For every state and every
call, in every site the list of (id, revision, timemodified) triples of the
store after the call equals the list before it (so no record is created or
removed and no watermark moves), the records of modules other than `id` are
unchanged, and every site other than `siteId` is unchanged. -/
theorem getModuleStatus_keeps_watermarks (sites : Sites) (siteId : String) (id : Int)
    (revision timemodified : Option Int) (s : String) :
    Promise.map (List.map watermark)
        ((getModuleStatus sites siteId id revision timemodified).2 s)
        = Promise.map (List.map watermark) (sites s)
      ∧ Promise.map (List.filter (fun r => decide (r.id ≠ id)))
          ((getModuleStatus sites siteId id revision timemodified).2 s)
        = Promise.map (List.filter (fun r => decide (r.id ≠ id))) (sites s)
      ∧ (s ≠ siteId →
          (getModuleStatus sites siteId id revision timemodified).2 s = sites s) := by
  cases hsite : sites siteId with
  | rejected e => simp [getModuleStatus, hsite]
  | resolved db =>
    cases hget : dbGet db id with
    | none => simp [getModuleStatus, hsite, hget]
    | some m =>
      have hid : m.id = id := dbGet_id hget
      by_cases hst : m.status = Status.FILEDOWNLOADED
      · by_cases hc : orZero revision > m.revision ∨ orZero timemodified > m.timemodified
        · simp only [getModuleStatus, hsite, hget, hst, if_true, if_pos hc]
          by_cases hs : s = siteId
          · subst hs
            have hw : watermark { m with status := Status.FILEOUTDATED } = watermark m := rfl
            have h1 := map_watermark_dbInsert hget hw
            have h2 := filter_ne_dbInsert (r := { m with status := Status.FILEOUTDATED })
              hget hid
            refine ⟨?_, ?_, fun h => absurd rfl h⟩
            · rw [setDb_same, hsite]; simp only [Promise.map, h1]
            · rw [setDb_same, hsite]; simp only [Promise.map, h2]
          · simp [setDb_of_ne _ _ _ _ hs]
        · simp only [getModuleStatus, hsite, hget, hst, if_true, if_neg hc]
          simp
      · simp only [getModuleStatus, hsite, hget, if_neg hst]
        simp

/-- C8: OUTDATED is an idempotent rest state. When `getModuleStatus` has
resolved with OUTDATED, a second call on the resulting state with the same or
lesser candidate values again resolves with OUTDATED and leaves that state as
it is; and writing a record a second time gives the store of the first
write. The second call never reaches the comparison, so the bounds on its
candidate are not used by the proof. -/
theorem getModuleStatus_outdated_idempotent (sites : Sites) (siteId : String) (id : Int)
    (revision timemodified revision2 timemodified2 : Int)
    (hfirst : (getModuleStatus sites siteId id (some revision) (some timemodified)).1
      = Promise.resolved Status.FILEOUTDATED)
    (_hrev : revision2 ≤ revision) (_htime : timemodified2 ≤ timemodified) :
    (getModuleStatus (getModuleStatus sites siteId id (some revision) (some timemodified)).2
        siteId id (some revision2) (some timemodified2)).1
        = Promise.resolved Status.FILEOUTDATED
      ∧ (getModuleStatus (getModuleStatus sites siteId id (some revision) (some timemodified)).2
          siteId id (some revision2) (some timemodified2)).2
        = (getModuleStatus sites siteId id (some revision) (some timemodified)).2
      ∧ ∀ (db : Db) (r : ModuleRecord), dbInsert (dbInsert db r) r = dbInsert db r := by
  obtain ⟨db, m, hsite, hget, hst⟩ :=
    outdated_record_of_getModuleStatus sites siteId id (some revision) (some timemodified)
      hfirst
  have hnd : m.status ≠ Status.FILEDOWNLOADED := by rw [hst]; decide
  refine ⟨?_, ?_, dbInsert_dbInsert_self⟩
  · rw [getModuleStatus]
    simp only [hsite, hget, if_neg hnd]
    rw [hst]
  · rw [getModuleStatus]
    simp only [hsite, hget, if_neg hnd]

/-- C8 at the spec's scenario: the sample record checked with candidate
(4, 1000), then again with the lesser candidate (3, 900). -/
theorem getModuleStatus_outdated_idempotent_witness :
    (getModuleStatus (getModuleStatus (oneSite sampleDb) "site1" 42 (some 4) (some 1000)).2
        "site1" 42 (some 3) (some 900)).1
        = Promise.resolved Status.FILEOUTDATED
      ∧ (getModuleStatus (getModuleStatus (oneSite sampleDb) "site1" 42 (some 4) (some 1000)).2
          "site1" 42 (some 3) (some 900)).2
        = (getModuleStatus (oneSite sampleDb) "site1" 42 (some 4) (some 1000)).2
      ∧ ∀ (db : Db) (r : ModuleRecord), dbInsert (dbInsert db r) r = dbInsert db r :=
  getModuleStatus_outdated_idempotent (oneSite sampleDb) "site1" 42 4 1000 3 900
    (by decide) (by decide) (by decide)

/-! ## Explicit stores and missing candidate values -/

/-- C9, as stated, fails: after `storeModuleStatus(site, 42, DOWNLOADED, -1, 500)`
the first `getModuleStatus(site, 42)` without candidate values resolves with
OUTDATED, not with the stored status DOWNLOADED, because the default candidate
revision `0` is greater than the stored `-1`. -/
theorem storeModuleStatus_roundtrip_counterexample :
    recordOf (storeModuleStatus (oneSite []) "site1" 42 Status.FILEDOWNLOADED
        (some (-1)) (some 500) 9).2 "site1" 42
        = some { id := 42, status := Status.FILEDOWNLOADED, revision := -1,
                 timemodified := 500, updated := 9 }
      ∧ (getModuleStatus (storeModuleStatus (oneSite []) "site1" 42 Status.FILEDOWNLOADED
          (some (-1)) (some 500) 9).2 "site1" 42 none none).1
        = Promise.resolved Status.FILEOUTDATED
      ∧ (getModuleStatus (storeModuleStatus (oneSite []) "site1" 42 Status.FILEDOWNLOADED
          (some (-1)) (some 500) 9).2 "site1" 42 none none).1
        ≠ Promise.resolved Status.FILEDOWNLOADED := by
  decide

/-- C9, amended: after `storeModuleStatus(site, id, s, r, t)` on a known site
the record filed under `id` has status `s`, revision `r` and timemodified `t`
(and `updated = now`); an immediately following `getModuleStatus(site, id)`
without candidate values resolves with `s` exactly when `s` is not DOWNLOADED
or neither `r` nor `t` is negative, and with OUTDATED otherwise. -/
theorem storeModuleStatus_roundtrip (sites : Sites) (siteId : String) (db : Db) (id : Int)
    (s : Status) (r t now : Int)
    (hsite : sites siteId = Promise.resolved db) :
    recordOf (storeModuleStatus sites siteId id s (some r) (some t) now).2 siteId id
        = some { id := id, status := s, revision := r, timemodified := t, updated := now }
      ∧ ((getModuleStatus (storeModuleStatus sites siteId id s (some r) (some t) now).2
            siteId id none none).1 = Promise.resolved s
          ↔ (s ≠ Status.FILEDOWNLOADED ∨ (0 ≤ r ∧ 0 ≤ t)))
      ∧ (¬ (s ≠ Status.FILEDOWNLOADED ∨ (0 ≤ r ∧ 0 ≤ t)) →
          (getModuleStatus (storeModuleStatus sites siteId id s (some r) (some t) now).2
            siteId id none none).1 = Promise.resolved Status.FILEOUTDATED) := by
  have hget : dbGet (dbInsert db
      { id := id, status := s, revision := r, timemodified := t, updated := now }) id
      = some { id := id, status := s, revision := r, timemodified := t, updated := now } :=
    dbGet_dbInsert_self db
      { id := id, status := s, revision := r, timemodified := t, updated := now }
  have hstate : (storeModuleStatus sites siteId id s (some r) (some t) now).2
      = setDb sites siteId (dbInsert db
          { id := id, status := s, revision := r, timemodified := t, updated := now }) := by
    simp only [storeModuleStatus, hsite, orZero_some]
  rw [hstate]
  refine ⟨?_, ?_, ?_⟩
  · rw [recordOf_setDb_same, hget]
  · by_cases hs : s = Status.FILEDOWNLOADED
    · subst hs
      by_cases hc : (0 : Int) > r ∨ (0 : Int) > t
      · have hno : ¬ ((0 : Int) ≤ r ∧ (0 : Int) ≤ t) := by omega
        simp [getModuleStatus, setDb_same, hget, orZero_none, hc, hno]
      · have hyes : (0 : Int) ≤ r ∧ (0 : Int) ≤ t := by omega
        simp [getModuleStatus, setDb_same, hget, orZero_none, hc, hyes]
    · simp [getModuleStatus, setDb_same, hget, hs]
  · intro hn
    have hs : s = Status.FILEDOWNLOADED := by
      by_contra h
      exact hn (Or.inl h)
    subst hs
    have hc : (0 : Int) > r ∨ (0 : Int) > t := by
      by_contra h
      exact hn (Or.inr (by omega))
    simp [getModuleStatus, setDb_same, hget, orZero_none, hc]

/-- C9, amended, at the spec's scenario
`storeModuleStatus(site, 42, DOWNLOADED, 2, 500)`. -/
theorem storeModuleStatus_roundtrip_witness :
    recordOf (storeModuleStatus (oneSite sampleDb) "site1" 42 Status.FILEDOWNLOADED
        (some 2) (some 500) 9).2 "site1" 42
        = some { id := 42, status := Status.FILEDOWNLOADED, revision := 2,
                 timemodified := 500, updated := 9 }
      ∧ (getModuleStatus (storeModuleStatus (oneSite sampleDb) "site1" 42
          Status.FILEDOWNLOADED (some 2) (some 500) 9).2 "site1" 42 none none).1
        = Promise.resolved Status.FILEDOWNLOADED :=
  ⟨(storeModuleStatus_roundtrip (oneSite sampleDb) "site1" sampleDb 42
      Status.FILEDOWNLOADED 2 500 9 (by decide)).1,
   (storeModuleStatus_roundtrip (oneSite sampleDb) "site1" sampleDb 42
      Status.FILEDOWNLOADED 2 500 9 (by decide)).2.1.mpr (Or.inr (by decide))⟩

/-- C10, as stated, fails: the record of module 42 is DOWNLOADED with the
non-zero watermark (revision -1, timemodified 500); `getModuleStatus` without
candidate values resolves with OUTDATED and rewrites the record, and
`isModuleOutdated` without candidate values resolves with `true`. -/
theorem missing_candidate_counterexample :
    negativeRecord.status = Status.FILEDOWNLOADED
      ∧ negativeRecord.revision ≠ 0 ∧ negativeRecord.timemodified ≠ 0
      ∧ (getModuleStatus (oneSite [negativeRecord]) "site1" 42 none none).1
        = Promise.resolved Status.FILEOUTDATED
      ∧ recordOf (getModuleStatus (oneSite [negativeRecord]) "site1" 42 none none).2 "site1" 42
        ≠ recordOf (oneSite [negativeRecord]) "site1" 42
      ∧ (isModuleOutdated (oneSite [negativeRecord]) "site1" 42 none none).1
        = Promise.resolved true := by
  decide

/-- C10, amended: for a record whose status is DOWNLOADED and whose stored
revision and timemodified are positive, `getModuleStatus` called without
revision and timemodified resolves with DOWNLOADED and writes nothing, and
`isModuleOutdated` called the same way resolves with `false`. -/
theorem missing_candidate_keeps_cache (sites : Sites) (siteId : String) (db : Db) (id : Int)
    (stored : ModuleRecord)
    (hsite : sites siteId = Promise.resolved db)
    (hget : dbGet db id = some stored)
    (hstatus : stored.status = Status.FILEDOWNLOADED)
    (hrev : 0 < stored.revision)
    (htime : 0 < stored.timemodified) :
    (getModuleStatus sites siteId id none none).1 = Promise.resolved Status.FILEDOWNLOADED
      ∧ (getModuleStatus sites siteId id none none).2 = sites
      ∧ (isModuleOutdated sites siteId id none none).1 = Promise.resolved false := by
  have hnot : ¬ ((0 : Int) > stored.revision ∨ (0 : Int) > stored.timemodified) := by
    omega
  refine ⟨?_, ?_, ?_⟩
  · simp only [getModuleStatus, hsite, hget, hstatus, orZero_none, if_true, if_neg hnot]
  · simp only [getModuleStatus, hsite, hget, hstatus, orZero_none, if_true, if_neg hnot]
  · simp only [isModuleOutdated, hsite, hget, orZero_none, hnot, decide_False]

/-- C10, amended, at the sample record (DOWNLOADED, revision 3, modified
1000). -/
theorem missing_candidate_keeps_cache_witness :
    (getModuleStatus (oneSite sampleDb) "site1" 42 none none).1
        = Promise.resolved Status.FILEDOWNLOADED
      ∧ (getModuleStatus (oneSite sampleDb) "site1" 42 none none).2 = oneSite sampleDb
      ∧ (isModuleOutdated (oneSite sampleDb) "site1" 42 none none).1 = Promise.resolved false :=
  missing_candidate_keeps_cache (oneSite sampleDb) "site1" sampleDb 42 sampleRecord
    (by decide) (by decide) (by decide) (by decide) (by decide)

/-! ## Writes: the `updated` stamp and the upsert -/

theorem orZero_eq_getD (x : Option Int) : orZero x = x.getD 0 := by
  cases x with
  | none => rfl
  | some n => simp [orZero_some]

/-- A write touches no record filed under another key. -/
theorem filter_ne_dbInsert_any (db : Db) (r : ModuleRecord) :
    (dbInsert db r).filter (fun x => decide (x.id ≠ r.id))
      = db.filter (fun x => decide (x.id ≠ r.id)) := by
  induction db with
  | nil => simp [dbInsert]
  | cons x xs ih =>
    simp only [ne_eq, decide_not] at ih
    by_cases hx : x.id = r.id
    · simp [dbInsert, hx]
    · simp [dbInsert, hx, ih]

/-- The keys of a store after a write. -/
theorem keys_dbInsert (db : Db) (r : ModuleRecord) :
    (dbInsert db r).map ModuleRecord.id
      = if r.id ∈ db.map ModuleRecord.id then db.map ModuleRecord.id
        else db.map ModuleRecord.id ++ [r.id] := by
  induction db with
  | nil => simp [dbInsert]
  | cons x xs ih =>
    by_cases hx : x.id = r.id
    · simp [dbInsert, hx]
    · have hx2 : ¬ r.id = x.id := fun h => hx h.symm
      by_cases hmem : r.id ∈ xs.map ModuleRecord.id
      · rw [if_pos hmem] at ih
        have hmem2 : r.id ∈ (x :: xs).map ModuleRecord.id := by
          rw [List.map_cons]; exact List.mem_cons_of_mem _ hmem
        rw [if_pos hmem2]
        simp [dbInsert, hx, ih]
      · rw [if_neg hmem] at ih
        have hmem2 : ¬ r.id ∈ (x :: xs).map ModuleRecord.id := by
          rw [List.map_cons, List.mem_cons]
          rintro (h | h)
          · exact hx2 h
          · exact hmem h
        rw [if_neg hmem2]
        simp [dbInsert, hx, ih]

/-- A write keeps the keys of a store distinct. -/
theorem nodup_keys_dbInsert (db : Db) (r : ModuleRecord)
    (h : (db.map ModuleRecord.id).Nodup) : ((dbInsert db r).map ModuleRecord.id).Nodup := by
  rw [keys_dbInsert]
  split_ifs with hmem
  · exact h
  · rw [List.nodup_append]
    refine ⟨h, List.nodup_singleton _, ?_⟩
    intro a ha hb
    rw [List.mem_singleton] at hb
    subst hb
    exact hmem ha

/-- In a store with distinct keys, the written record is afterwards the only
one filed under its key. -/
theorem filter_eq_dbInsert (db : Db) (r : ModuleRecord)
    (h : (db.map ModuleRecord.id).Nodup) :
    (dbInsert db r).filter (fun x => decide (x.id = r.id)) = [r] := by
  induction db with
  | nil => simp [dbInsert]
  | cons x xs ih =>
    rw [List.map_cons, List.nodup_cons] at h
    by_cases hx : x.id = r.id
    · have hnone : xs.filter (fun y => decide (y.id = r.id)) = [] := by
        rw [List.filter_eq_nil_iff]
        intro y hy hyid
        apply h.1
        have : y.id = x.id := by rw [hx]; simpa using hyid
        rw [← this]
        exact List.mem_map_of_mem _ hy
      simp [dbInsert, hx, hnone]
    · simp [dbInsert, hx, ih h.2]

/-- C11: the code at the OUTDATED transition. When `getModuleStatus` moves a
DOWNLOADED record to OUTDATED, the record written is the stored one with only
`status` changed: its `updated` field keeps the stored value whatever the
time of the call, whereas the record written by `storeModuleStatus` at
clock value `now` has `updated = now`. -/
theorem getModuleStatus_transition_keeps_updated (sites : Sites) (siteId : String) (db : Db)
    (id : Int) (stored : ModuleRecord) (revision timemodified : Option Int)
    (hsite : sites siteId = Promise.resolved db)
    (hget : dbGet db id = some stored)
    (hstatus : stored.status = Status.FILEDOWNLOADED)
    (hnewer : orZero revision > stored.revision ∨ orZero timemodified > stored.timemodified) :
    recordOf (getModuleStatus sites siteId id revision timemodified).2 siteId id
        = some { stored with status := Status.FILEOUTDATED }
      ∧ (recordOf (getModuleStatus sites siteId id revision timemodified).2 siteId id).map
          ModuleRecord.updated = some stored.updated
      ∧ ∀ (status : Status) (now : Int),
          (recordOf (storeModuleStatus sites siteId id status revision timemodified now).2
            siteId id).map ModuleRecord.updated = some now := by
  have hid : stored.id = id := dbGet_id hget
  have hrec : recordOf (getModuleStatus sites siteId id revision timemodified).2 siteId id
      = some { stored with status := Status.FILEOUTDATED } := by
    simp only [getModuleStatus, hsite, hget, hstatus, if_true, if_pos hnewer]
    rw [recordOf_setDb_same]
    have := dbGet_dbInsert_self db { stored with status := Status.FILEOUTDATED }
    simpa [hid] using this
  refine ⟨hrec, ?_, ?_⟩
  · rw [hrec]; rfl
  · intro status now
    simp only [storeModuleStatus, hsite]
    rw [recordOf_setDb_same]
    have := dbGet_dbInsert_self db
      { id := id, status := status, revision := orZero revision,
        timemodified := orZero timemodified, updated := now }
    simp only at this
    rw [this]; rfl

/-- C11 at the sample record (`updated = 7`): after the OUTDATED transition
the record still has `updated = 7`, and a `storeModuleStatus` at clock value 9
writes `updated = 9`. -/
theorem getModuleStatus_transition_keeps_updated_witness :
    recordOf (getModuleStatus (oneSite sampleDb) "site1" 42 (some 4) (some 1000)).2 "site1" 42
        = some { sampleRecord with status := Status.FILEOUTDATED }
      ∧ (recordOf (getModuleStatus (oneSite sampleDb) "site1" 42 (some 4) (some 1000)).2
          "site1" 42).map ModuleRecord.updated = some 7
      ∧ (recordOf (storeModuleStatus (oneSite sampleDb) "site1" 42 Status.FILEOUTDATED
          (some 4) (some 1000) 9).2 "site1" 42).map ModuleRecord.updated = some 9 :=
  ⟨(getModuleStatus_transition_keeps_updated (oneSite sampleDb) "site1" sampleDb 42
      sampleRecord (some 4) (some 1000) (by decide) (by decide) (by decide) (by decide)).1,
   (getModuleStatus_transition_keeps_updated (oneSite sampleDb) "site1" sampleDb 42
      sampleRecord (some 4) (some 1000) (by decide) (by decide) (by decide) (by decide)).2.1,
   (getModuleStatus_transition_keeps_updated (oneSite sampleDb) "site1" sampleDb 42
      sampleRecord (some 4) (some 1000) (by decide) (by decide) (by decide) (by decide)).2.2
      Status.FILEOUTDATED 9⟩

/-- C12: `storeModuleStatus` is an ungated upsert scoped to one site and one
module id. Whatever the store of the site held before, the call resolves, the
record filed under `id` afterwards is exactly
`{id, status, revision or 0, timemodified or 0, updated = now}`, the records
of other module ids are unchanged, every other site is unchanged, and, the
keys of the store being distinct, the written record is the only one filed
under `id` and the keys stay distinct. -/
theorem storeModuleStatus_upsert (sites : Sites) (siteId : String) (db : Db) (id : Int)
    (status : Status) (revision timemodified : Option Int) (now : Int)
    (hsite : sites siteId = Promise.resolved db) :
    (storeModuleStatus sites siteId id status revision timemodified now).1
        = Promise.resolved ()
      ∧ recordOf (storeModuleStatus sites siteId id status revision timemodified now).2
          siteId id
        = some { id := id, status := status, revision := revision.getD 0,
                 timemodified := timemodified.getD 0, updated := now }
      ∧ (∃ db', (storeModuleStatus sites siteId id status revision timemodified now).2 siteId
            = Promise.resolved db'
          ∧ db'.filter (fun r => decide (r.id ≠ id)) = db.filter (fun r => decide (r.id ≠ id))
          ∧ ((db.map ModuleRecord.id).Nodup →
              db'.filter (fun r => decide (r.id = id))
                = [{ id := id, status := status, revision := revision.getD 0,
                     timemodified := timemodified.getD 0, updated := now }]
              ∧ (db'.map ModuleRecord.id).Nodup))
      ∧ ∀ s, s ≠ siteId →
          (storeModuleStatus sites siteId id status revision timemodified now).2 s
            = sites s := by
  have hstate : (storeModuleStatus sites siteId id status revision timemodified now).2
      = setDb sites siteId (dbInsert db
          { id := id, status := status, revision := revision.getD 0,
            timemodified := timemodified.getD 0, updated := now }) := by
    simp only [storeModuleStatus, hsite, orZero_eq_getD]
  refine ⟨?_, ?_, ?_, ?_⟩
  · simp only [storeModuleStatus, hsite]
  · rw [hstate, recordOf_setDb_same]
    exact dbGet_dbInsert_self db
      { id := id, status := status, revision := revision.getD 0,
        timemodified := timemodified.getD 0, updated := now }
  · refine ⟨_, by rw [hstate, setDb_same], ?_, ?_⟩
    · exact filter_ne_dbInsert_any db
        { id := id, status := status, revision := revision.getD 0,
          timemodified := timemodified.getD 0, updated := now }
    · intro hnodup
      exact ⟨filter_eq_dbInsert db
          { id := id, status := status, revision := revision.getD 0,
            timemodified := timemodified.getD 0, updated := now } hnodup,
        nodup_keys_dbInsert db _ hnodup⟩
  · intro s hs
    rw [hstate, setDb_of_ne _ _ _ _ hs]

/-- C12 at the sample store: module 42 is stored again, with the timemodified
left out. -/
theorem storeModuleStatus_upsert_witness :
    recordOf (storeModuleStatus (oneSite sampleDb) "site1" 42 Status.FILEDOWNLOADED
        (some 2) none 9).2 "site1" 42
        = some { id := 42, status := Status.FILEDOWNLOADED, revision := 2,
                 timemodified := 0, updated := 9 }
      ∧ ∃ db', (storeModuleStatus (oneSite sampleDb) "site1" 42 Status.FILEDOWNLOADED
            (some 2) none 9).2 "site1" = Promise.resolved db'
          ∧ db'.filter (fun r => decide (r.id ≠ 42))
            = sampleDb.filter (fun r => decide (r.id ≠ 42))
          ∧ db'.filter (fun r => decide (r.id = 42))
            = [{ id := 42, status := Status.FILEDOWNLOADED, revision := 2,
                 timemodified := 0, updated := 9 }] := by
  obtain ⟨_, hrec, ⟨db', hdb, hothers, hone⟩, _⟩ :=
    storeModuleStatus_upsert (oneSite sampleDb) "site1" sampleDb 42 Status.FILEDOWNLOADED
      (some 2) none 9 (by decide)
  exact ⟨hrec, db', hdb, hothers, (hone (by decide)).1⟩

/-! ## Watermark extraction -/

/-- A descriptor that exposes no revision is passed over by the loop. -/
theorem getRevisionFromContentsLoop_skip (g : String → Option Int) (file : ContentFile)
    (rest : List ContentFile) (h : ∀ r, ¬ exposesRevision g file r) :
    getRevisionFromContentsLoop g (file :: rest) = getRevisionFromContentsLoop g rest := by
  cases hurl : file.fileurl with
  | none => simp [getRevisionFromContentsLoop, hurl]
  | some url =>
    by_cases he : url = ""
    · simp [getRevisionFromContentsLoop, hurl, he]
    · cases hg : g url with
      | none => simp [getRevisionFromContentsLoop, hurl, he, hg]
      | some r => exact absurd ⟨url, hurl, he, hg⟩ (h r)

theorem getRevisionFromContentsLoop_none (g : String → Option Int) (files : List ContentFile)
    (h : ∀ f ∈ files, ∀ r, ¬ exposesRevision g f r) :
    getRevisionFromContentsLoop g files = 0 := by
  induction files with
  | nil => rfl
  | cons f rest ih =>
    rw [getRevisionFromContentsLoop_skip g f rest (h f (List.mem_cons_self _ _))]
    exact ih (fun x hx => h x (List.mem_cons_of_mem _ hx))

theorem getRevisionFromContentsLoop_first (g : String → Option Int)
    (pre : List ContentFile) (f : ContentFile) (post : List ContentFile) (r : Int)
    (hpre : ∀ x ∈ pre, ∀ q, ¬ exposesRevision g x q) (hf : exposesRevision g f r) :
    getRevisionFromContentsLoop g (pre ++ f :: post) = r := by
  induction pre with
  | nil =>
    obtain ⟨url, hurl, he, hg⟩ := hf
    simp [getRevisionFromContentsLoop, hurl, he, hg]
  | cons x xs ih =>
    rw [List.cons_append,
      getRevisionFromContentsLoop_skip g x _ (hpre x (List.mem_cons_self _ _))]
    exact ih (fun y hy => hpre y (List.mem_cons_of_mem _ hy))

/-- C13: `getRevisionFromContents` is first-match-wins. For every helper
`getRevisionFromUrl`: the result is `0` for a missing list, for the empty list
and for a list in which no descriptor has a fileurl exposing a revision; for
a list `pre ++ f :: post` in which no descriptor of `pre` exposes a revision
and `f` exposes `r`, the result is `r`, whatever `post` holds; and on the
list with fileurls exposing 3 and then 9 the result is 3, not the maximum 9. -/
theorem getRevisionFromContents_first_match (g : String → Option Int) :
    getRevisionFromContents g none = 0
      ∧ getRevisionFromContents g (some []) = 0
      ∧ (∀ files : List ContentFile, (∀ f ∈ files, ∀ r, ¬ exposesRevision g f r) →
          getRevisionFromContents g (some files) = 0)
      ∧ (∀ (pre : List ContentFile) (f : ContentFile) (post : List ContentFile) (r : Int),
          (∀ x ∈ pre, ∀ q, ¬ exposesRevision g x q) → exposesRevision g f r →
          getRevisionFromContents g (some (pre ++ f :: post)) = r)
      ∧ (exposesRevision sampleRevisionFromUrl ⟨some "f/3/a", none⟩ 3
          ∧ exposesRevision sampleRevisionFromUrl ⟨some "f/9/b", none⟩ 9
          ∧ getRevisionFromContents sampleRevisionFromUrl
              (some [⟨none, none⟩, ⟨some "f/3/a", none⟩, ⟨some "f/9/b", none⟩]) = 3
          ∧ getRevisionFromContents sampleRevisionFromUrl
              (some [⟨none, none⟩, ⟨some "f/3/a", none⟩, ⟨some "f/9/b", none⟩]) ≠ 9) := by
  refine ⟨rfl, rfl, ?_, ?_, ?_⟩
  · intro files h
    simp only [getRevisionFromContents]
    split_ifs
    · exact getRevisionFromContentsLoop_none g files h
    · rfl
  · intro pre f post r hpre hf
    have hlen : (pre ++ f :: post).length ≠ 0 := by simp
    simp only [getRevisionFromContents, hlen, ne_eq, not_false_eq_true, if_true]
    exact getRevisionFromContentsLoop_first g pre f post r hpre hf
  · exact ⟨⟨"f/3/a", rfl, by decide, by decide⟩, ⟨"f/9/b", rfl, by decide, by decide⟩,
      by decide, by decide⟩

/-- C13 at a list whose first descriptor has no fileurl, whose second exposes
revision 3 and whose third exposes revision 9. -/
theorem getRevisionFromContents_first_match_witness :
    getRevisionFromContents sampleRevisionFromUrl
      (some ([⟨none, some 5⟩] ++ (⟨some "f/3/a", none⟩ : ContentFile)
        :: [⟨some "f/9/b", none⟩])) = 3 :=
  (getRevisionFromContents_first_match sampleRevisionFromUrl).2.2.2.1
    [⟨none, some 5⟩] ⟨some "f/3/a", none⟩ [⟨some "f/9/b", none⟩] 3
    (by
      intro x hx q hq
      rw [List.mem_singleton] at hx
      subst hx
      obtain ⟨url, hurl, _, _⟩ := hq
      simp at hurl)
    ⟨"f/3/a", rfl, by decide, by decide⟩

/-- A descriptor without a non-zero timestamp is passed over by the loop. -/
theorem getTimemodifiedFromContentsLoop_skip (file : ContentFile) (rest : List ContentFile)
    (h : ∀ t, ¬ carriesTimemodified file t) :
    getTimemodifiedFromContentsLoop (file :: rest) = getTimemodifiedFromContentsLoop rest := by
  cases ht : file.timemodified with
  | none => simp [getTimemodifiedFromContentsLoop, ht]
  | some t =>
    by_cases h0 : t = 0
    · simp [getTimemodifiedFromContentsLoop, ht, h0]
    · exact absurd ⟨ht, h0⟩ (h t)

theorem getTimemodifiedFromContentsLoop_none (files : List ContentFile)
    (h : ∀ f ∈ files, ∀ t, ¬ carriesTimemodified f t) :
    getTimemodifiedFromContentsLoop files = 0 := by
  induction files with
  | nil => rfl
  | cons f rest ih =>
    rw [getTimemodifiedFromContentsLoop_skip f rest (h f (List.mem_cons_self _ _))]
    exact ih (fun x hx => h x (List.mem_cons_of_mem _ hx))

theorem getTimemodifiedFromContentsLoop_first (pre : List ContentFile) (f : ContentFile)
    (post : List ContentFile) (t : Int)
    (hpre : ∀ x ∈ pre, ∀ q, ¬ carriesTimemodified x q) (hf : carriesTimemodified f t) :
    getTimemodifiedFromContentsLoop (pre ++ f :: post) = t := by
  induction pre with
  | nil =>
    obtain ⟨ht, h0⟩ := hf
    simp [getTimemodifiedFromContentsLoop, ht, h0]
  | cons x xs ih =>
    rw [List.cons_append,
      getTimemodifiedFromContentsLoop_skip x _ (hpre x (List.mem_cons_self _ _))]
    exact ih (fun y hy => hpre y (List.mem_cons_of_mem _ hy))

/-- When no descriptor has the timestamp `0`, the loop returns the first
timestamp present. -/
theorem getTimemodifiedFromContentsLoop_eq_first (files : List ContentFile)
    (h : ∀ f ∈ files, f.timemodified ≠ some 0) :
    getTimemodifiedFromContentsLoop files = firstExplicitTimemodified files := by
  induction files with
  | nil => rfl
  | cons f rest ih =>
    have ih2 := ih (fun x hx => h x (List.mem_cons_of_mem _ hx))
    have hf := h f (List.mem_cons_self _ _)
    cases ht : f.timemodified with
    | none =>
      simp only [firstExplicitTimemodified] at ih2
      simp [getTimemodifiedFromContentsLoop, firstExplicitTimemodified, List.findSome?_cons,
        ht, ih2]
    | some t =>
      have h0 : t ≠ 0 := by
        intro h0
        rw [ht, h0] at hf
        exact hf rfl
      simp [getTimemodifiedFromContentsLoop, firstExplicitTimemodified, List.findSome?_cons,
        ht, h0]

/-- C14, as stated, fails: in the list whose first descriptor has the explicit
timestamp `0` and whose second has `500`, the first descriptor carrying a
timestamp has `0`, but `getTimemodifiedFromContents` passes it over and
returns `500`. -/
theorem getTimemodifiedFromContents_counterexample :
    firstExplicitTimemodified [⟨none, some 0⟩, ⟨none, some 500⟩] = 0
      ∧ getTimemodifiedFromContents (some [⟨none, some 0⟩, ⟨none, some 500⟩]) = 500
      ∧ getTimemodifiedFromContents (some [⟨none, some 0⟩, ⟨none, some 500⟩])
        ≠ firstExplicitTimemodified [⟨none, some 0⟩, ⟨none, some 500⟩] := by
  decide

/-- C14, amended: `getTimemodifiedFromContents` returns the timestamp of the
first descriptor, in list order, whose timestamp is present and not `0`
(descriptors without the field or with timestamp `0` are passed over), and
`0` for a missing list, the empty list and a list without such a descriptor;
on a list in which no descriptor has the timestamp `0` this is the first
timestamp present. -/
theorem getTimemodifiedFromContents_first_nonzero :
    getTimemodifiedFromContents none = 0
      ∧ getTimemodifiedFromContents (some []) = 0
      ∧ (∀ files : List ContentFile, (∀ f ∈ files, ∀ t, ¬ carriesTimemodified f t) →
          getTimemodifiedFromContents (some files) = 0)
      ∧ (∀ (pre : List ContentFile) (f : ContentFile) (post : List ContentFile) (t : Int),
          (∀ x ∈ pre, ∀ q, ¬ carriesTimemodified x q) → carriesTimemodified f t →
          getTimemodifiedFromContents (some (pre ++ f :: post)) = t)
      ∧ (∀ files : List ContentFile, (∀ f ∈ files, f.timemodified ≠ some 0) →
          getTimemodifiedFromContents (some files) = firstExplicitTimemodified files) := by
  refine ⟨rfl, rfl, ?_, ?_, ?_⟩
  · intro files h
    simp only [getTimemodifiedFromContents]
    split_ifs
    · exact getTimemodifiedFromContentsLoop_none files h
    · rfl
  · intro pre f post t hpre hf
    have hlen : (pre ++ f :: post).length ≠ 0 := by simp
    simp only [getTimemodifiedFromContents, hlen, ne_eq, not_false_eq_true, if_true]
    exact getTimemodifiedFromContentsLoop_first pre f post t hpre hf
  · intro files h
    simp only [getTimemodifiedFromContents]
    split_ifs with hlen
    · exact getTimemodifiedFromContentsLoop_eq_first files h
    · have : files = [] := by
        cases files with
        | nil => rfl
        | cons a l => simp at hlen
      subst this
      rfl

/-- C14, amended, at the list of the counterexample: the descriptor with
timestamp `0` is passed over and `500` is returned. -/
theorem getTimemodifiedFromContents_first_nonzero_witness :
    getTimemodifiedFromContents
      (some ([⟨none, some 0⟩] ++ (⟨none, some 500⟩ : ContentFile) :: [⟨none, some 700⟩]))
      = 500 :=
  getTimemodifiedFromContents_first_nonzero.2.2.2.1
    [⟨none, some 0⟩] ⟨none, some 500⟩ [⟨none, some 700⟩] 500
    (by
      intro x hx q hq
      rw [List.mem_singleton] at hx
      subst hx
      obtain ⟨ht, h0⟩ := hq
      simp at ht
      exact h0 ht.symm)
    ⟨rfl, by decide⟩

/-! ## Cache keys and invalidation -/

theorem digitChar_value (k : Nat) (h : k < 10) : (Nat.digitChar k).toNat - 48 = k := by
  interval_cases k <;> rfl

theorem foldl_toDigitsCore (fuel : Nat) : ∀ (n : Nat) (ds : List Char), n < fuel →
    List.foldl (fun a c => 10 * a + (c.toNat - 48)) 0 (Nat.toDigitsCore 10 fuel n ds)
      = List.foldl (fun a c => 10 * a + (c.toNat - 48)) n ds := by
  induction fuel with
  | zero => intro n ds h; omega
  | succ fuel ih =>
    intro n ds h
    have hd : (Nat.digitChar (n % 10)).toNat - 48 = n % 10 :=
      digitChar_value (n % 10) (Nat.mod_lt _ (by decide))
    unfold Nat.toDigitsCore
    by_cases h0 : n / 10 = 0
    · simp only [h0, if_true, List.foldl_cons, hd]
      have : n % 10 = n := by omega
      simp [this]
    · simp only [h0, if_false]
      rw [ih (n / 10) _ (by omega)]
      simp only [List.foldl_cons, hd]
      have : 10 * (n / 10) + n % 10 = n := by omega
      rw [this]

/-- The decimal digits of a natural number decode to that number. -/
theorem decimalValue_toDigits (n : Nat) : decimalValue (Nat.toDigits 10 n) = n := by
  unfold decimalValue Nat.toDigits
  rw [foldl_toDigitsCore (n + 1) n [] (Nat.lt_succ_self n)]
  rfl

theorem string_append_left_cancel {p s t : String} (h : p ++ s = p ++ t) : s = t := by
  have hd := congrArg String.data h
  rw [String.data_append, String.data_append] at hd
  exact String.ext (List.append_cancel_left hd)

theorem bitLength_zero (fuel : Nat) : bitLength fuel 0 = 0 := by
  cases fuel <;> simp [bitLength]

theorem bitLength_bounds : ∀ (fuel v : Nat), v ≤ fuel → v ≠ 0 →
    2 ^ (bitLength fuel v - 1) ≤ v ∧ v < 2 ^ bitLength fuel v := by
  intro fuel
  induction fuel with
  | zero => intro v h h0; omega
  | succ fuel ih =>
    intro v h h0
    simp only [bitLength, h0, if_false]
    by_cases h2 : v / 2 = 0
    · rw [h2, bitLength_zero]
      have : v = 1 := by omega
      subst this
      simp
    · obtain ⟨hlo, hhi⟩ := ih (v / 2) (by omega) h2
      have hb : bitLength fuel (v / 2) ≠ 0 := by
        intro hb
        rw [hb] at hhi
        simp at hhi
        exact h2 hhi
      obtain ⟨b, hb2⟩ := Nat.exists_eq_succ_of_ne_zero hb
      rw [hb2] at hlo hhi ⊢
      simp only [Nat.succ_eq_add_one, Nat.add_sub_cancel] at hlo hhi ⊢
      rw [pow_succ] at hhi ⊢
      constructor
      · omega
      · rw [pow_succ]; omega

/-- Shape of a number value above `2 ^ 53`. -/
theorem large_number_shape (v : Nat) (hv : 2 ^ 53 < v)
    (hrep : v % 2 ^ binaryExponent v = 0) :
    1 ≤ binaryExponent v ∧ v = significand v * 2 ^ binaryExponent v
      ∧ 2 ^ 52 ≤ significand v ∧ significand v < 2 ^ 53 := by
  have h0 : v ≠ 0 := by
    intro h; rw [h] at hv; simp at hv
  obtain ⟨hlo, hhi⟩ := bitLength_bounds v v le_rfl h0
  have hb : 53 < bitLength v v := by
    by_contra hb
    have : 2 ^ bitLength v v ≤ 2 ^ 53 := Nat.pow_le_pow_right (by decide) (by omega)
    omega
  have he : binaryExponent v = bitLength v v - 53 := rfl
  have hb2 : bitLength v v = binaryExponent v + 53 := by omega
  have hb3 : bitLength v v - 1 = binaryExponent v + 52 := by omega
  rw [hb2] at hhi
  rw [hb3] at hlo
  have hmul : significand v * 2 ^ binaryExponent v = v := by
    unfold significand
    exact Nat.div_mul_cancel (Nat.dvd_of_mod_eq_zero hrep)
  have hpos : 0 < 2 ^ binaryExponent v := Nat.pow_pos (by decide)
  have e1 : 2 ^ (binaryExponent v + 52) = 2 ^ 52 * 2 ^ binaryExponent v := by
    rw [pow_add, mul_comm]
  have e2 : 2 ^ (binaryExponent v + 53) = 2 ^ 53 * 2 ^ binaryExponent v := by
    rw [pow_add, mul_comm]
  have hlo2 : 2 ^ 52 * 2 ^ binaryExponent v ≤ significand v * 2 ^ binaryExponent v := by
    rw [hmul, ← e1]; exact hlo
  have hhi2 : significand v * 2 ^ binaryExponent v < 2 ^ 53 * 2 ^ binaryExponent v := by
    rw [hmul, ← e2]; exact hhi
  exact ⟨by omega, hmul.symm, Nat.le_of_mul_le_mul_right hlo2 hpos,
    Nat.lt_of_mul_lt_mul_right hhi2⟩

theorem rounding_gap (e1 e2 m1 m2 c : Nat) (he1 : 1 ≤ e1) (he2 : 1 ≤ e2)
    (hm1 : 2 ^ 52 ≤ m1) (hm1' : m1 < 2 ^ 53) (hm2 : 2 ^ 52 ≤ m2) (hm2' : m2 < 2 ^ 53)
    (hlt : m1 * 2 ^ e1 < m2 * 2 ^ e2)
    (hc1 : if m1 % 2 = 0 then c ≤ m1 * 2 ^ e1 + 2 ^ (e1 - 1)
           else c < m1 * 2 ^ e1 + 2 ^ (e1 - 1))
    (hc2 : if m2 % 2 = 0
           then m2 * 2 ^ e2 - (if m2 = 2 ^ 52 then 2 ^ (e2 - 2) else 2 ^ (e2 - 1)) ≤ c
           else m2 * 2 ^ e2 - (if m2 = 2 ^ 52 then 2 ^ (e2 - 2) else 2 ^ (e2 - 1)) < c) :
    False := by
  have c52 : (2 : Nat) ^ 52 = 4503599627370496 := by norm_num
  have c53 : (2 : Nat) ^ 53 = 9007199254740992 := by norm_num
  rw [c52] at hm1 hm2 hc2
  rw [c53] at hm1' hm2'
  obtain ⟨k, rfl⟩ : ∃ k, e1 = k + 1 := ⟨e1 - 1, by omega⟩
  have hE : 0 < 2 ^ k := Nat.pow_pos (by decide)
  have hk1 : 2 ^ (k + 1) = 2 * 2 ^ k := by rw [pow_succ, mul_comm]
  simp only [Nat.add_sub_cancel] at hc1
  -- the second exponent is at least the first
  have hle : k + 1 ≤ e2 := by
    by_contra hcon
    have h1 : 2 ^ e2 * 2 ≤ 2 ^ (k + 1) := by
      rw [← pow_succ]
      exact Nat.pow_le_pow_right (by decide) (by omega)
    have h2 : 4503599627370496 * 2 ^ (k + 1) ≤ m1 * 2 ^ (k + 1) :=
      Nat.mul_le_mul_right _ hm1
    have h3 : m2 * 2 ^ e2 ≤ 9007199254740991 * 2 ^ e2 :=
      Nat.mul_le_mul_right _ (by omega)
    omega
  obtain ⟨d, rfl⟩ : ∃ d, e2 = k + 1 + d := ⟨e2 - (k + 1), by omega⟩
  have hA1 : 4503599627370496 * 2 ^ k ≤ m1 * 2 ^ k := Nat.mul_le_mul_right _ hm1
  have hA2 : m1 * 2 ^ k ≤ 9007199254740991 * 2 ^ k := Nat.mul_le_mul_right _ (by omega)
  have hv1 : m1 * 2 ^ (k + 1) = 2 * (m1 * 2 ^ k) := by rw [hk1]; ring
  rw [hv1] at hlt hc1
  match d with
  | 0 =>
    simp only [Nat.add_zero, Nat.add_sub_cancel] at hlt hc2
    have hv2 : m2 * 2 ^ (k + 1) = 2 * (m2 * 2 ^ k) := by rw [hk1]; ring
    rw [hv2] at hlt hc2
    have hmlt : m1 < m2 := by
      by_contra hcon
      have : m2 * 2 ^ k ≤ m1 * 2 ^ k := Nat.mul_le_mul_right _ (by omega)
      omega
    have hne : ¬ m2 = 4503599627370496 := by omega
    simp only [hne, if_false] at hc2
    by_cases hstep : m2 = m1 + 1
    · subst hstep
      have : (m1 + 1) * 2 ^ k = m1 * 2 ^ k + 2 ^ k := by ring
      rw [this] at hc2
      by_cases hp : m1 % 2 = 0
      · have hp2 : ¬ (m1 + 1) % 2 = 0 := by omega
        simp only [hp, if_true] at hc1
        simp only [hp2, if_false] at hc2
        omega
      · have hp2 : (m1 + 1) % 2 = 0 := by omega
        simp only [hp, if_false] at hc1
        simp only [hp2, if_true] at hc2
        omega
    · have : (m1 + 2) * 2 ^ k ≤ m2 * 2 ^ k := Nat.mul_le_mul_right _ (by omega)
      have h2 : (m1 + 2) * 2 ^ k = m1 * 2 ^ k + 2 * 2 ^ k := by ring
      split_ifs at hc1 hc2 <;> omega
  | 1 =>
    have hk2 : 2 ^ (k + 1 + 1) = 4 * 2 ^ k := by rw [pow_succ, pow_succ]; ring
    have hs1 : k + 1 + 1 - 1 = k + 1 := by omega
    have hs2 : k + 1 + 1 - 2 = k := by omega
    rw [hs1, hs2, hk1] at hc2
    have hv2 : m2 * 2 ^ (k + 1 + 1) = 4 * (m2 * 2 ^ k) := by rw [hk2]; ring
    rw [hv2] at hlt hc2
    have hB1 : 4503599627370496 * 2 ^ k ≤ m2 * 2 ^ k := Nat.mul_le_mul_right _ hm2
    by_cases hpow : m2 = 4503599627370496
    · subst hpow
      have hp2 : (4503599627370496 : Nat) % 2 = 0 := by norm_num
      simp only [hp2, eq_self_iff_true, if_true] at hc2
      by_cases hmax : m1 = 9007199254740991
      · subst hmax
        have hp1 : ¬ (9007199254740991 : Nat) % 2 = 0 := by norm_num
        simp only [hp1, if_false] at hc1
        omega
      · have : m1 * 2 ^ k ≤ 9007199254740990 * 2 ^ k := Nat.mul_le_mul_right _ (by omega)
        split_ifs at hc1 <;> omega
    · simp only [hpow, if_false] at hc2
      have : 4503599627370497 * 2 ^ k ≤ m2 * 2 ^ k := Nat.mul_le_mul_right _ (by omega)
      split_ifs at hc1 hc2 <;> omega
  | j + 2 =>
    have hJ : 0 < 2 ^ j := Nat.pow_pos (by decide)
    have hJE : 2 ^ k ≤ 2 ^ j * 2 ^ k := Nat.le_mul_of_pos_left _ hJ
    have hk3 : 2 ^ (k + 1 + (j + 2)) = 8 * (2 ^ j * 2 ^ k) := by
      rw [show k + 1 + (j + 2) = j + k + 3 by omega, pow_add, pow_add]; ring
    have hs1 : 2 ^ (k + 1 + (j + 2) - 1) = 4 * (2 ^ j * 2 ^ k) := by
      rw [show k + 1 + (j + 2) - 1 = j + k + 2 by omega, pow_add, pow_add]; ring
    have hs2 : 2 ^ (k + 1 + (j + 2) - 2) = 2 * (2 ^ j * 2 ^ k) := by
      rw [show k + 1 + (j + 2) - 2 = j + k + 1 by omega, pow_add, pow_add]; ring
    rw [hs1, hs2] at hc2
    have hv2 : m2 * 2 ^ (k + 1 + (j + 2)) = 8 * (m2 * (2 ^ j * 2 ^ k)) := by
      rw [hk3]; ring
    rw [hv2] at hlt hc2
    have hB1 : 4503599627370496 * (2 ^ j * 2 ^ k) ≤ m2 * (2 ^ j * 2 ^ k) :=
      Nat.mul_le_mul_right _ hm2
    split_ifs at hc1 hc2 <;> omega

theorem inRoundingInterval_iff (v c : Nat) :
    inRoundingInterval v c = true ↔
      (if significand v % 2 = 0 then roundingLow v ≤ c ∧ c ≤ roundingHigh v
       else roundingLow v < c ∧ c < roundingHigh v) := by
  unfold inRoundingInterval roundsToEven
  by_cases h : significand v % 2 = 0
  · simp [h]
  · simp [h]

theorem inRoundingInterval_ordered (v1 v2 c : Nat) (h1 : 2 ^ 53 < v1)
    (r1 : v1 % 2 ^ binaryExponent v1 = 0) (h2 : 2 ^ 53 < v2)
    (r2 : v2 % 2 ^ binaryExponent v2 = 0) (hlt : v1 < v2)
    (hc1 : inRoundingInterval v1 c = true) (hc2 : inRoundingInterval v2 c = true) :
    False := by
  obtain ⟨he1, hv1, hm1, hm1'⟩ := large_number_shape v1 h1 r1
  obtain ⟨he2, hv2, hm2, hm2'⟩ := large_number_shape v2 h2 r2
  rw [inRoundingInterval_iff] at hc1 hc2
  unfold roundingLow roundingHigh at hc1 hc2
  generalize binaryExponent v1 = e1 at *
  generalize significand v1 = m1 at *
  generalize binaryExponent v2 = e2 at *
  generalize significand v2 = m2 at *
  subst hv1 hv2
  refine rounding_gap e1 e2 m1 m2 c he1 he2 hm1 hm1' hm2 hm2' hlt ?_ ?_
  · by_cases hp : m1 % 2 = 0
    · rw [if_pos hp] at hc1 ⊢; exact hc1.2
    · rw [if_neg hp] at hc1 ⊢; exact hc1.2
  · by_cases hp : m2 % 2 = 0
    · rw [if_pos hp] at hc2 ⊢; exact hc2.1
    · rw [if_neg hp] at hc2 ⊢; exact hc2.1

/-- The rounding intervals of two different number values above `2 ^ 53`
have no point in common. -/
theorem inRoundingInterval_disjoint (v1 v2 c : Nat) (h1 : 2 ^ 53 < v1)
    (r1 : v1 % 2 ^ binaryExponent v1 = 0) (h2 : 2 ^ 53 < v2)
    (r2 : v2 % 2 ^ binaryExponent v2 = 0)
    (hc1 : inRoundingInterval v1 c = true) (hc2 : inRoundingInterval v2 c = true) :
    v1 = v2 := by
  rcases lt_trichotomy v1 v2 with h | h | h
  · exact (inRoundingInterval_ordered v1 v2 c h1 r1 h2 r2 h hc1 hc2).elim
  · exact h
  · exact (inRoundingInterval_ordered v2 v1 c h2 r2 h1 r1 h hc2 hc1).elim

/-- A point of the rounding interval of a number value above `2 ^ 53` is
itself above `2 ^ 53`. -/
theorem inRoundingInterval_large (v c : Nat) (h1 : 2 ^ 53 < v)
    (r1 : v % 2 ^ binaryExponent v = 0) (hc : inRoundingInterval v c = true) :
    2 ^ 53 < c := by
  obtain ⟨he, hv, hm, hm'⟩ := large_number_shape v h1 r1
  rw [inRoundingInterval_iff] at hc
  unfold roundingLow at hc
  have hlow : 2 ^ 53 < v - (if significand v = 2 ^ 52 then 2 ^ (binaryExponent v - 2)
      else 2 ^ (binaryExponent v - 1)) := by
    generalize binaryExponent v = e at *
    generalize significand v = m at *
    subst hv
    have c52 : (2 : Nat) ^ 52 = 4503599627370496 := by norm_num
    have c53 : (2 : Nat) ^ 53 = 9007199254740992 := by norm_num
    rw [c52] at hm ⊢
    rw [c53] at hm' h1 ⊢
    by_cases hp : m = 4503599627370496
    · subst hp
      simp only [eq_self_iff_true, if_true]
      have he2 : 2 ≤ e := by
        by_contra hcon
        have : e = 1 := by omega
        subst this
        norm_num at h1
      obtain ⟨k, rfl⟩ : ∃ k, e = k + 2 := ⟨e - 2, by omega⟩
      have hE : 0 < 2 ^ k := Nat.pow_pos (by decide)
      have : 2 ^ (k + 2) = 4 * 2 ^ k := by rw [pow_succ, pow_succ]; ring
      rw [this]
      simp only [Nat.add_sub_cancel]
      omega
    · simp only [hp, if_false]
      obtain ⟨k, rfl⟩ : ∃ k, e = k + 1 := ⟨e - 1, by omega⟩
      have hE : 0 < 2 ^ k := Nat.pow_pos (by decide)
      have h3 : 2 ^ (k + 1) = 2 * 2 ^ k := by rw [pow_succ]; ring
      have h4 : 4503599627370497 * 2 ^ k ≤ m * 2 ^ k := Nat.mul_le_mul_right _ (by omega)
      have h5 : m * 2 ^ (k + 1) = 2 * (m * 2 ^ k) := by rw [h3]; ring
      rw [h5]
      simp only [Nat.add_sub_cancel]
      omega
  generalize v - (if significand v = 2 ^ 52 then 2 ^ (binaryExponent v - 2)
      else 2 ^ (binaryExponent v - 1)) = low at hc hlow
  by_cases hp : significand v % 2 = 0
  · rw [if_pos hp] at hc; exact lt_of_lt_of_le hlow hc.1
  · rw [if_neg hp] at hc; exact lt_trans hlow hc.1

/-- A number value above `2 ^ 53` lies in its own rounding interval. -/
theorem inRoundingInterval_self (v : Nat) (h1 : 2 ^ 53 < v) :
    inRoundingInterval v v = true := by
  rw [inRoundingInterval_iff]
  unfold roundingLow roundingHigh
  have hup : 0 < 2 ^ (binaryExponent v - 1) := Nat.pow_pos (by decide)
  have hd1 : 0 < 2 ^ (binaryExponent v - 2) := Nat.pow_pos (by decide)
  have hv : 0 < v := lt_trans (Nat.pow_pos (by decide)) h1
  split_ifs <;> omega

theorem shortestFrom_inRoundingInterval (v : Nat) (h : inRoundingInterval v v = true) :
    ∀ p, inRoundingInterval v (shortestFrom v p) = true := by
  intro p
  induction p with
  | zero => exact h
  | succ p ih =>
    simp only [shortestFrom]
    split_ifs with h1 h2 h3 h4 h5 h6
    all_goals first
      | exact ih
      | (simp only [Bool.and_eq_true] at h1; first | exact h1.1.2 | exact h1.2)
      | (simp only [Bool.and_eq_true] at h5; exact h5.2)
      | exact h6

theorem shortestDecimal_inRoundingInterval (v : Nat) (h1 : 2 ^ 53 < v) :
    inRoundingInterval v (shortestDecimal v) = true :=
  shortestFrom_inRoundingInterval v (inRoundingInterval_self v h1) _

theorem digitChar_isDigit (k : Nat) (h : k < 10) : (Nat.digitChar k).isDigit = true := by
  interval_cases k <;> rfl

theorem toDigitsCore_isDigit (fuel : Nat) : ∀ (n : Nat) (ds : List Char),
    (∀ ch ∈ ds, ch.isDigit = true) →
    ∀ ch ∈ Nat.toDigitsCore 10 fuel n ds, ch.isDigit = true := by
  induction fuel with
  | zero => intro n ds h; simpa [Nat.toDigitsCore] using h
  | succ fuel ih =>
    intro n ds h
    have hd : (Nat.digitChar (n % 10)).isDigit = true :=
      digitChar_isDigit (n % 10) (Nat.mod_lt _ (by decide))
    have hcons : ∀ ch ∈ Nat.digitChar (n % 10) :: ds, ch.isDigit = true := by
      intro ch hch
      rcases List.mem_cons.mp hch with h1 | h1
      · rw [h1]; exact hd
      · exact h ch h1
    unfold Nat.toDigitsCore
    by_cases h0 : n / 10 = 0
    · simp only [h0, if_true]; exact hcons
    · simp only [h0, if_false]; exact ih _ _ hcons

/-- Every character of a decimal digit string is a digit. -/
theorem toDigits_isDigit (n : Nat) : ∀ ch ∈ Nat.toDigits 10 n, ch.isDigit = true :=
  toDigitsCore_isDigit _ _ _ (by simp)

theorem isDigit_ne_e {ch : Char} (h : ch.isDigit = true) : (ch != 'e') = true := by
  have : ch ≠ 'e' := by rintro rfl; exact absurd h (by decide)
  simpa using this

theorem isDigit_ne_dot {ch : Char} (h : ch.isDigit = true) : (ch != '.') = true := by
  have : ch ≠ '.' := by rintro rfl; exact absurd h (by decide)
  simpa using this

theorem isDigit_ne_minus {ch : Char} (h : ch.isDigit = true) : ch ≠ '-' := by
  rintro rfl; exact absurd h (by decide)

theorem takeWhile_append_stop {p : Char → Bool} (l1 : List Char) (a : Char) (l2 : List Char)
    (h1 : ∀ x ∈ l1, p x = true) (ha : p a = false) :
    (l1 ++ a :: l2).takeWhile p = l1 ∧ (l1 ++ a :: l2).dropWhile p = a :: l2 := by
  induction l1 with
  | nil => simp [List.takeWhile, List.dropWhile, ha]
  | cons x xs ih =>
    have hx : p x = true := h1 x (List.mem_cons_self _ _)
    have := ih (fun y hy => h1 y (List.mem_cons_of_mem _ hy))
    simp [List.takeWhile, List.dropWhile, hx, this]

theorem decimalValue_append_zeros (l : List Char) (j : Nat) :
    decimalValue (l ++ List.replicate j '0') = decimalValue l * 10 ^ j := by
  induction j with
  | zero => simp
  | succ j ih =>
    have : l ++ List.replicate (j + 1) '0' = (l ++ List.replicate j '0') ++ ['0'] := by
      rw [List.replicate_succ', List.append_assoc]
    rw [this]
    unfold decimalValue at ih ⊢
    rw [List.foldl_append, ih]
    simp only [List.foldl_cons, List.foldl_nil]
    have : ('0' : Char).toNat - 48 = 0 := by decide
    rw [this, pow_succ]
    ring

/-- A digit string is its stripped part followed by zeros. -/
theorem stripZeros_append (l : List Char) :
    l = stripZeros l ++ List.replicate (l.length - (stripZeros l).length) '0' := by
  have h := List.takeWhile_append_dropWhile (fun d => d == '0') l.reverse
  have hrev : l = (l.reverse.dropWhile (fun d => d == '0')).reverse
      ++ (l.reverse.takeWhile (fun d => d == '0')).reverse := by
    have := congrArg List.reverse h
    rw [List.reverse_append, List.reverse_reverse] at this
    exact this.symm
  have hz : l.reverse.takeWhile (fun d => d == '0')
      = List.replicate (l.reverse.takeWhile (fun d => d == '0')).length '0' := by
    rw [List.eq_replicate_iff]
    refine ⟨rfl, ?_⟩
    intro b hb
    have := List.mem_takeWhile_imp hb
    simpa using this
  have hlen : l.length = (stripZeros l).length
      + (l.reverse.takeWhile (fun d => d == '0')).length := by
    have := congrArg List.length hrev
    rw [List.length_append, List.length_reverse, List.length_reverse] at this
    unfold stripZeros
    rw [List.length_reverse]
    exact this
  have hj : l.length - (stripZeros l).length
      = (l.reverse.takeWhile (fun d => d == '0')).length := by omega
  rw [hj]
  have hz2 : (l.reverse.takeWhile (fun d => d == '0')).reverse
      = List.replicate (l.reverse.takeWhile (fun d => d == '0')).length '0' := by
    rw [hz, List.reverse_replicate, List.length_replicate]
  rw [← hz2]
  exact hrev

theorem stripZeros_subset (l : List Char) : ∀ ch ∈ stripZeros l, ch ∈ l := by
  intro ch hch
  rw [stripZeros_append l]
  exact List.mem_append_left _ hch

theorem parseRendering_toDigits (c : Nat) : parseRendering (Nat.toDigits 10 c) = c := by
  have hall : ∀ ch ∈ Nat.toDigits 10 c, (ch != 'e') = true :=
    fun ch h => isDigit_ne_e (toDigits_isDigit c ch h)
  have hdot : ∀ ch ∈ Nat.toDigits 10 c, (ch != '.') = true :=
    fun ch h => isDigit_ne_dot (toDigits_isDigit c ch h)
  have h1 : (Nat.toDigits 10 c).dropWhile (fun ch => ch != 'e') = [] :=
    List.dropWhile_eq_nil_iff.mpr hall
  have h2 : (Nat.toDigits 10 c).takeWhile (fun ch => ch != 'e') = Nat.toDigits 10 c :=
    List.takeWhile_eq_self_iff.mpr hall
  have h3 : (Nat.toDigits 10 c).filter (fun ch => ch != '.') = Nat.toDigits 10 c :=
    List.filter_eq_self.mpr hdot
  unfold parseRendering
  rw [h1, h2, h3]
  exact decimalValue_toDigits c

theorem mantissaChars_no_e (s : List Char) (h : ∀ ch ∈ s, ch.isDigit = true) :
    ∀ ch ∈ mantissaChars s, (ch != 'e') = true := by
  intro ch hch
  match s, h, hch with
  | [], _, hch => simp [mantissaChars] at hch
  | [d], h, hch =>
    simp only [mantissaChars, List.mem_singleton] at hch
    rw [hch]; exact isDigit_ne_e (h d (List.mem_singleton_self d))
  | d :: x :: rest, h, hch =>
    simp only [mantissaChars, List.mem_cons] at hch
    rcases hch with h1 | h1 | h1 | h1
    · rw [h1]; exact isDigit_ne_e (h d (List.mem_cons_self _ _))
    · rw [h1]; decide
    · rw [h1]; exact isDigit_ne_e (h x (List.mem_cons_of_mem _ (List.mem_cons_self _ _)))
    · exact isDigit_ne_e (h ch (List.mem_cons_of_mem _ (List.mem_cons_of_mem _ h1)))

theorem mantissaChars_filter (s : List Char) (h : ∀ ch ∈ s, ch.isDigit = true) :
    (mantissaChars s).filter (fun ch => ch != '.') = s := by
  have hself : ∀ l : List Char, (∀ ch ∈ l, ch.isDigit = true) →
      l.filter (fun ch => ch != '.') = l :=
    fun l hl => List.filter_eq_self.mpr (fun ch hch => isDigit_ne_dot (hl ch hch))
  match s, h with
  | [], _ => rfl
  | [d], h =>
    simp only [mantissaChars]
    exact hself [d] h
  | d :: x :: rest, h =>
    have hd : (d != '.') = true := isDigit_ne_dot (h d (List.mem_cons_self _ _))
    have hrest := hself (x :: rest) (fun ch hch => h ch (List.mem_cons_of_mem _ hch))
    have hstep : List.filter (fun ch => ch != '.') (d :: '.' :: x :: rest)
        = d :: List.filter (fun ch => ch != '.') (x :: rest) := by
      rw [List.filter_cons, if_pos hd, List.filter_cons, if_neg (by decide)]
    simp only [mantissaChars]
    rw [hstep, hrest]

theorem mantissaChars_head (s : List Char) (h : ∀ ch ∈ s, ch.isDigit = true) (rest : List Char)
    (tail : List Char) : mantissaChars s ++ 'e' :: tail ≠ '-' :: rest := by
  match s, h with
  | [], _ =>
    intro hcon
    simp only [mantissaChars, List.nil_append, List.cons.injEq] at hcon
    exact absurd hcon.1 (by decide)
  | [d], h =>
    intro hcon
    simp only [mantissaChars, List.singleton_append, List.cons.injEq] at hcon
    exact isDigit_ne_minus (h d (List.mem_singleton_self d)) hcon.1
  | d :: x :: more, h =>
    intro hcon
    simp only [mantissaChars, List.cons_append, List.cons.injEq] at hcon
    exact isDigit_ne_minus (h d (List.mem_cons_self _ _)) hcon.1

theorem decimalValue_plus (l : List Char) : decimalValue ('+' :: l) = decimalValue l := by
  unfold decimalValue
  rw [List.foldl_cons]
  rfl

theorem parseRendering_exponent (c : Nat) (hpos : 0 < (Nat.toDigits 10 c).length) :
    parseRendering (mantissaChars (stripZeros (Nat.toDigits 10 c))
      ++ 'e' :: '+' :: Nat.toDigits 10 ((Nat.toDigits 10 c).length - 1)) = c := by
  have hS : ∀ ch ∈ stripZeros (Nat.toDigits 10 c), ch.isDigit = true :=
    fun ch h => toDigits_isDigit c ch (stripZeros_subset _ ch h)
  obtain ⟨ht, hd⟩ := takeWhile_append_stop (p := fun ch => ch != 'e')
    (mantissaChars (stripZeros (Nat.toDigits 10 c))) 'e'
    ('+' :: Nat.toDigits 10 ((Nat.toDigits 10 c).length - 1))
    (mantissaChars_no_e _ hS) (by decide)
  unfold parseRendering
  rw [hd, ht]
  simp only
  rw [mantissaChars_filter _ hS, decimalValue_plus, decimalValue_toDigits]
  have happ := stripZeros_append (Nat.toDigits 10 c)
  have hlen : (stripZeros (Nat.toDigits 10 c)).length ≤ (Nat.toDigits 10 c).length := by
    have := congrArg List.length happ
    rw [List.length_append] at this
    omega
  have hexp : (Nat.toDigits 10 c).length - 1 + 1 - (stripZeros (Nat.toDigits 10 c)).length
      = (Nat.toDigits 10 c).length - (stripZeros (Nat.toDigits 10 c)).length := by omega
  rw [hexp, ← decimalValue_append_zeros, ← happ]
  exact decimalValue_toDigits c

theorem parseNumber_of_no_minus (cs : List Char) (h : ∀ rest, cs ≠ '-' :: rest) :
    parseNumber cs = (parseRendering cs : Int) := by
  unfold parseNumber
  split
  · exact absurd rfl (h _)
  · rfl

theorem toDigits_no_minus (c : Nat) (rest : List Char) : Nat.toDigits 10 c ≠ '-' :: rest := by
  intro h
  have := toDigits_isDigit c '-' (by rw [h]; exact List.mem_cons_self _ _)
  exact absurd this (by decide)

theorem formatLarge_data (c : Nat) :
    (formatLarge c).data
      = if (Nat.toDigits 10 c).length ≤ 21 then Nat.toDigits 10 c
        else mantissaChars (stripZeros (Nat.toDigits 10 c))
          ++ 'e' :: '+' :: Nat.toDigits 10 ((Nat.toDigits 10 c).length - 1) := by
  unfold formatLarge
  split_ifs <;> rfl

theorem formatLarge_no_minus (c : Nat) (rest : List Char) :
    (formatLarge c).data ≠ '-' :: rest := by
  rw [formatLarge_data]
  split_ifs
  · exact toDigits_no_minus c rest
  · exact mantissaChars_head _
      (fun ch h => toDigits_isDigit c ch (stripZeros_subset _ ch h)) rest _

/-- Reading a rendering back gives the number that was rendered. -/
theorem parseRendering_formatLarge (c : Nat) : parseRendering (formatLarge c).data = c := by
  rw [formatLarge_data]
  split_ifs with h
  · exact parseRendering_toDigits c
  · exact parseRendering_exponent c (by omega)

theorem parseNumber_numberToString (n : Int) :
    parseNumber (numberToString n).data = shortestValue n := by
  unfold numberToString shortestValue
  by_cases hs : n.natAbs ≤ 2 ^ 53
  · rw [if_pos hs, if_pos hs]
    cases n with
    | ofNat m =>
      have hd : (toString (Int.ofNat m)).data = Nat.toDigits 10 m := rfl
      rw [hd, parseNumber_of_no_minus _ (toDigits_no_minus m), parseRendering_toDigits]
      rfl
    | negSucc m =>
      have hd : (toString (Int.negSucc m)).data = '-' :: Nat.toDigits 10 (m + 1) := rfl
      rw [hd]
      show - (parseRendering (Nat.toDigits 10 (m + 1)) : Int) = Int.negSucc m
      rw [parseRendering_toDigits]
      rfl
  · rw [if_neg hs, if_neg hs]
    by_cases hneg : n < 0
    · rw [if_pos hneg, if_pos hneg, String.data_append]
      show - (parseRendering (formatLarge (shortestDecimal n.natAbs)).data : Int) = _
      rw [parseRendering_formatLarge]
    · rw [if_neg hneg, if_neg hneg, String.data_append]
      show parseNumber ([] ++ (formatLarge (shortestDecimal n.natAbs)).data) = _
      rw [List.nil_append, parseNumber_of_no_minus _ (formatLarge_no_minus _),
        parseRendering_formatLarge]

theorem isNumberValue_large {n : Int} (h : isNumberValue n = true) (hs : ¬ n.natAbs ≤ 2 ^ 53) :
    2 ^ 53 < n.natAbs ∧ n.natAbs % 2 ^ binaryExponent n.natAbs = 0 := by
  unfold isNumberValue at h
  simp only [Bool.or_eq_true, Bool.and_eq_true, decide_eq_true_eq] at h
  rcases h with h | h
  · exact absurd h hs
  · exact ⟨by omega, h.1⟩

theorem shortestValue_natAbs_large {n : Int} (h : isNumberValue n = true)
    (hs : ¬ n.natAbs ≤ 2 ^ 53) :
    (shortestValue n).natAbs = shortestDecimal n.natAbs
      ∧ 2 ^ 53 < shortestDecimal n.natAbs
      ∧ (shortestValue n < 0 ↔ n < 0) := by
  obtain ⟨hbig, hrep⟩ := isNumberValue_large h hs
  have hin := shortestDecimal_inRoundingInterval n.natAbs hbig
  have hc := inRoundingInterval_large n.natAbs _ hbig hrep hin
  have hpos : 0 < shortestDecimal n.natAbs := lt_trans (Nat.pow_pos (by decide)) hc
  unfold shortestValue
  rw [if_neg hs]
  by_cases hneg : n < 0
  · rw [if_pos hneg]
    refine ⟨by simp, hc, ?_⟩
    constructor
    · intro _; exact hneg
    · intro _; omega
  · rw [if_neg hneg]
    refine ⟨by simp, hc, ?_⟩
    constructor
    · intro h2; omega
    · intro h2; exact absurd h2 hneg

/-- Two number values with the same shortest decimal are equal. -/
theorem shortestValue_injective {a b : Int} (ha : isNumberValue a = true)
    (hb : isNumberValue b = true) (h : shortestValue a = shortestValue b) : a = b := by
  by_cases hsa : a.natAbs ≤ 2 ^ 53
  · by_cases hsb : b.natAbs ≤ 2 ^ 53
    · have e1 : shortestValue a = a := by unfold shortestValue; rw [if_pos hsa]
      have e2 : shortestValue b = b := by unfold shortestValue; rw [if_pos hsb]
      rw [e1, e2] at h
      exact h
    · obtain ⟨h1, h2, _⟩ := shortestValue_natAbs_large hb hsb
      have : shortestValue a = a := by unfold shortestValue; rw [if_pos hsa]
      rw [← h, this] at h1
      omega
  · by_cases hsb : b.natAbs ≤ 2 ^ 53
    · obtain ⟨h1, h2, _⟩ := shortestValue_natAbs_large ha hsa
      have : shortestValue b = b := by unfold shortestValue; rw [if_pos hsb]
      rw [h, this] at h1
      omega
    · obtain ⟨h1, _, h3⟩ := shortestValue_natAbs_large ha hsa
      obtain ⟨k1, _, k3⟩ := shortestValue_natAbs_large hb hsb
      obtain ⟨abig, arep⟩ := isNumberValue_large ha hsa
      obtain ⟨bbig, brep⟩ := isNumberValue_large hb hsb
      have hc : shortestDecimal a.natAbs = shortestDecimal b.natAbs := by
        rw [← h1, ← k1, h]
      have hina := shortestDecimal_inRoundingInterval a.natAbs abig
      have hinb := shortestDecimal_inRoundingInterval b.natAbs bbig
      rw [hc] at hina
      have habs := inRoundingInterval_disjoint _ _ _ abig arep bbig brep hina hinb
      have hsign : a < 0 ↔ b < 0 := by rw [← h3, ← k3, h]
      omega

/-- The rendering of number values is injective. -/
theorem numberToString_injective {a b : Int} (ha : isNumberValue a = true)
    (hb : isNumberValue b = true) (h : numberToString a = numberToString b) : a = b := by
  apply shortestValue_injective ha hb
  rw [← parseNumber_numberToString, ← parseNumber_numberToString, h]

/-- C15, as stated, fails: `10 ^ 21` is a Number value, and the key derived from
it is `"mmCourse:module:1e+21"`, not `"mmCourse:module:"` followed by the
decimal rendering `1000000000000000000000`; likewise the key of `2 ^ 60` ends
in `1152921504606847000`, not in the decimal rendering of `2 ^ 60`. -/
theorem getModuleCacheKey_counterexample :
    isNumberValue 1000000000000000000000 = true
      ∧ getModuleCacheKey (some 1000000000000000000000) = "mmCourse:module:1e+21"
      ∧ toString (1000000000000000000000 : Int) = "1000000000000000000000"
      ∧ getModuleCacheKey (some 1000000000000000000000)
        ≠ "mmCourse:module:" ++ toString (1000000000000000000000 : Int)
      ∧ isNumberValue 1152921504606846976 = true
      ∧ getModuleCacheKey (some 1152921504606846976) = "mmCourse:module:1152921504606847000"
      ∧ getModuleCacheKey (some 1152921504606846976)
        ≠ "mmCourse:module:" ++ toString (1152921504606846976 : Int) := by
  decide

/-- C15, amended: cache-key derivation is a deterministic injection. For every
module id the key is `"mmCourse:module:"` followed by the string conversion of
the id, which for every integer of magnitude at most `2 ^ 53` is its decimal
rendering (for a natural number, the digit string that decodes to it); equal
ids give equal keys; two distinct ids that are Number values give distinct
keys; and `invalidateModule(id)` makes exactly one call on the site, the
invalidation of that key, and returns its outcome. -/
theorem getModuleCacheKey_number_injective (site : Site) :
    (∀ id : Int, getModuleCacheKey (some id) = "mmCourse:module:" ++ numberToString id)
      ∧ (∀ id : Int, id.natAbs ≤ 2 ^ 53 →
          getModuleCacheKey (some id) = "mmCourse:module:" ++ toString id)
      ∧ (∀ n : Nat, n ≤ 2 ^ 53 →
          getModuleCacheKey (some (n : Int))
              = "mmCourse:module:" ++ String.mk (Nat.toDigits 10 n)
            ∧ decimalValue (Nat.toDigits 10 n) = n)
      ∧ (∀ id id2 : Int, id = id2 → getModuleCacheKey (some id) = getModuleCacheKey (some id2))
      ∧ (∀ id id2 : Int, isNumberValue id = true → isNumberValue id2 = true → id ≠ id2 →
          getModuleCacheKey (some id) ≠ getModuleCacheKey (some id2))
      ∧ (∀ id : Int,
          (invalidateModule site (some id)).2
              = [SiteCall.invalidateWsCacheForKey (getModuleCacheKey (some id))]
            ∧ (invalidateModule site (some id)).1
              = site.invalidateWsCacheForKey (getModuleCacheKey (some id))) := by
  refine ⟨fun _ => rfl, ?_, ?_, ?_, ?_, fun _ => ⟨rfl, rfl⟩⟩
  · intro id hsafe
    simp only [getModuleCacheKey, jsToString, numberToString, if_pos hsafe]
  · intro n hsafe
    have hn : (n : Int).natAbs ≤ 2 ^ 53 := by simpa using hsafe
    refine ⟨?_, decimalValue_toDigits n⟩
    simp only [getModuleCacheKey, jsToString, numberToString, if_pos hn]
    rfl
  · intro id id2 h
    rw [h]
  · intro id id2 hid hid2 hne h
    apply hne
    simp only [getModuleCacheKey, jsToString] at h
    exact numberToString_injective hid hid2 (string_append_left_cancel h)

/-- C15, amended, at module ids 42, 43 and `10 ^ 21`. -/
theorem getModuleCacheKey_number_injective_witness :
    getModuleCacheKey (some 42) = "mmCourse:module:" ++ toString (42 : Int)
      ∧ getModuleCacheKey (some 42) ≠ getModuleCacheKey (some 43)
      ∧ getModuleCacheKey (some 42) ≠ getModuleCacheKey (some 1000000000000000000000)
      ∧ getModuleCacheKey (some 42) = getModuleCacheKey (some 42) :=
  ⟨(getModuleCacheKey_number_injective (siteWith [])).2.1 42 (by decide),
   (getModuleCacheKey_number_injective (siteWith [])).2.2.2.2.1 42 43
      (by decide) (by decide) (by decide),
   (getModuleCacheKey_number_injective (siteWith [])).2.2.2.2.1 42 1000000000000000000000
      (by decide) (by decide) (by decide),
   (getModuleCacheKey_number_injective (siteWith [])).2.2.2.1 42 42 rfl⟩

/-- C16, as stated, fails for `invalidateModule`: called without a module id,
or with the module id `0`, it does not reject on its own; it asks the
response cache to invalidate `"mmCourse:module:undefined"`, respectively
`"mmCourse:module:0"`, and resolves when the cache does. -/
theorem invalidateModule_counterexample :
    (invalidateModule (siteWith []) none).2
        = [SiteCall.invalidateWsCacheForKey "mmCourse:module:undefined"]
      ∧ (invalidateModule (siteWith []) none).2 ≠ []
      ∧ (invalidateModule (siteWith []) none).1 = Promise.resolved ()
      ∧ (invalidateModule (siteWith []) (some 0)).2
        = [SiteCall.invalidateWsCacheForKey "mmCourse:module:0"]
      ∧ (invalidateModule (siteWith []) (some 0)).1 = Promise.resolved () := by
  decide

/-- C16, amended: for a missing or zero `moduleid`, `getModule` rejects at
once, without a reason and without any call on the site; `invalidateModule`
has no such guard: for every `moduleid`, missing and zero included, it makes
exactly one call, the invalidation of the key derived from `moduleid`, and
returns the outcome of that call. -/
theorem getModule_fails_fast (site : Site) (courseid : Int) (moduleid sectionid : Option Int) :
    ((moduleid = none ∨ moduleid = some 0) →
        getModule site courseid moduleid sectionid = (Promise.rejected none, []))
      ∧ (invalidateModule site moduleid).2
        = [SiteCall.invalidateWsCacheForKey (getModuleCacheKey moduleid)]
      ∧ (invalidateModule site moduleid).1
        = site.invalidateWsCacheForKey (getModuleCacheKey moduleid) := by
  refine ⟨?_, rfl, rfl⟩
  intro hmissing
  rcases hmissing with h | h
  · subst h; rfl
  · subst h; rfl

/-- C16, amended, at `getModule(5, 0, 10)` and `invalidateModule(0)` on a site
that would answer. -/
theorem getModule_fails_fast_witness :
    getModule (siteWith sampleSections) 5 (some 0) (some 10) = (Promise.rejected none, [])
      ∧ (invalidateModule (siteWith sampleSections) (some 0)).2
        = [SiteCall.invalidateWsCacheForKey (getModuleCacheKey (some 0))]
      ∧ (invalidateModule (siteWith sampleSections) (some 0)).1
        = (siteWith sampleSections).invalidateWsCacheForKey (getModuleCacheKey (some 0)) :=
  ⟨(getModule_fails_fast (siteWith sampleSections) 5 (some 0) (some 10)).1 (Or.inr rfl),
   (getModule_fails_fast (siteWith sampleSections) 5 (some 0) (some 10)).2.1,
   (getModule_fails_fast (siteWith sampleSections) 5 (some 0) (some 10)).2.2⟩

/-! ## Lookups in the course listing -/

/-- C17: the code at the failing input. The listing `sampleSections` has
module 2 as the second module of its first section, yet `getModule(5, 2)`
makes its read and then rejects without a reason: the inner loop reads
`section.modules[i]` with the section index `i = 0` on every iteration, so it
only ever looks at module 1. Module 3, first in the second section, is missed
the same way, while module 4 is found because it sits at index 1 of the
section with index 1; and on a listing whose second section has a single
module the read of `section.modules[1].id` fails. -/
theorem getModule_misses_module :
    (∃ sect ∈ sampleSections, ∃ m ∈ sect.modules, m.id = 2)
      ∧ getModule (siteWith sampleSections) 5 (some 2) none
        = (Promise.rejected none, [moduleRead 5 2])
      ∧ getModule (siteWith sampleSections) 5 (some 3) none
        = (Promise.rejected none, [moduleRead 5 3])
      ∧ getModule (siteWith sampleSections) 5 (some 4) none
        = (Promise.resolved { id := 4, name := "Forum" }, [moduleRead 5 4])
      ∧ (getModule (siteWith
            [{ id := 10, name := "General", modules := [{ id := 1, name := "News" }] },
             { id := 20, name := "Week 1", modules := [{ id := 3, name := "Quiz" }] }])
          5 (some 3) none).1 = Promise.rejected typeErrorReason := by
  refine ⟨⟨{ id := 10, name := "General", modules :=
      [{ id := 1, name := "News" }, { id := 2, name := "Syllabus" }] }, by decide,
      { id := 2, name := "Syllabus" }, by decide, rfl⟩, by decide, by decide, by decide,
      by decide⟩

theorem getSectionLoop_found (sectionid : Int) (pre : List Section) (sect : Section)
    (post : List Section) (hpre : ∀ x ∈ pre, x.id ≠ sectionid) (hid : sect.id = sectionid) :
    getSectionLoop sectionid (pre ++ sect :: post) = Promise.resolved sect := by
  induction pre with
  | nil => simp [getSectionLoop, hid]
  | cons x xs ih =>
    have hx : ¬ x.id = sectionid := hpre x (List.mem_cons_self _ _)
    simp only [List.cons_append, getSectionLoop, if_neg hx]
    exact ih (fun y hy => hpre y (List.mem_cons_of_mem _ hy))

theorem getSectionLoop_unknown (sectionid : Int) (sections : List Section)
    (h : ∀ x ∈ sections, x.id ≠ sectionid) :
    getSectionLoop sectionid sections = Promise.rejected (some "Unkown section") := by
  induction sections with
  | nil => rfl
  | cons x xs ih =>
    have hx : ¬ x.id = sectionid := h x (List.mem_cons_self _ _)
    simp only [getSectionLoop, if_neg hx]
    exact ih (fun y hy => h y (List.mem_cons_of_mem _ hy))

/-- C18: `getSection` rejects with a descriptive reason and otherwise finds
the section. For `sectionid < 0` it rejects with `'Invalid section ID'` and
makes no call on the site. For `sectionid >= 0` it makes exactly the read of
`getSections`; when that read resolves with a list `pre ++ sect :: post` in
which `sect` is the first section whose id equals `sectionid`, it resolves
with `sect`; when no section of the list has that id it rejects with the
unknown-section reason (spelled `'Unkown section'` in the source); and when
the read is rejected with `e` it is rejected with the same `e`. -/
theorem getSection_outcomes (site : Site) (courseid sectionid : Int) (refresh : Bool) :
    (sectionid < 0 →
        getSection site courseid sectionid refresh
          = (Promise.rejected (some "Invalid section ID"), []))
      ∧ (0 ≤ sectionid →
          (getSection site courseid sectionid refresh).2 = [sectionsRead courseid refresh]
          ∧ (∀ (pre : List Section) (sect : Section) (post : List Section),
              (getSections site courseid refresh).1 = Promise.resolved (pre ++ sect :: post) →
              (∀ x ∈ pre, x.id ≠ sectionid) → sect.id = sectionid →
              (getSection site courseid sectionid refresh).1 = Promise.resolved sect)
          ∧ (∀ sections : List Section,
              (getSections site courseid refresh).1 = Promise.resolved sections →
              (∀ x ∈ sections, x.id ≠ sectionid) →
              (getSection site courseid sectionid refresh).1
                = Promise.rejected (some "Unkown section"))
          ∧ (∀ e : Option String,
              (getSections site courseid refresh).1 = Promise.rejected e →
              (getSection site courseid sectionid refresh).1 = Promise.rejected e)) := by
  constructor
  · intro hneg
    simp only [getSection, if_pos hneg]
  · intro hpos
    have hnot : ¬ sectionid < 0 := by omega
    have hcalls : (getSections site courseid refresh).2 = [sectionsRead courseid refresh] := by
      cases refresh <;> rfl
    have hpair : getSections site courseid refresh
        = ((getSections site courseid refresh).1, [sectionsRead courseid refresh]) := by
      rw [← hcalls]
    refine ⟨?_, ?_, ?_, ?_⟩
    · simp only [getSection, if_neg hnot]
      rw [hpair]
      cases (getSections site courseid refresh).1 <;> rfl
    · intro pre sect post hread hpre hid
      simp only [getSection, if_neg hnot]
      rw [hpair, hread]
      exact getSectionLoop_found sectionid pre sect post hpre hid
    · intro sections hread hnone
      simp only [getSection, if_neg hnot]
      rw [hpair, hread]
      exact getSectionLoop_unknown sectionid sections hnone
    · intro e hread
      simp only [getSection, if_neg hnot]
      rw [hpair, hread]

/-- C18 at section ids -1, 20 and 30 of the sample listing, and at a failing
fetch. -/
theorem getSection_outcomes_witness :
    getSection (siteWith sampleSections) 5 (-1) false
        = (Promise.rejected (some "Invalid section ID"), [])
      ∧ (getSection (siteWith sampleSections) 5 20 false).1
        = Promise.resolved { id := 20, name := "Week 1", modules :=
            [{ id := 3, name := "Quiz" }, { id := 4, name := "Forum" }] }
      ∧ (getSection (siteWith sampleSections) 5 30 false).1
        = Promise.rejected (some "Unkown section")
      ∧ (getSection (failingSite (some "offline")) 5 20 true).1
        = Promise.rejected (some "offline") :=
  ⟨(getSection_outcomes (siteWith sampleSections) 5 (-1) false).1 (by decide),
   ((getSection_outcomes (siteWith sampleSections) 5 20 false).2 (by decide)).2.1
      [{ id := 10, name := "General", modules :=
          [{ id := 1, name := "News" }, { id := 2, name := "Syllabus" }] }]
      { id := 20, name := "Week 1", modules :=
          [{ id := 3, name := "Quiz" }, { id := 4, name := "Forum" }] }
      [] rfl (by decide) rfl,
   ((getSection_outcomes (siteWith sampleSections) 5 30 false).2 (by decide)).2.2.1
      sampleSections rfl (by decide),
   ((getSection_outcomes (failingSite (some "offline")) 5 20 true).2 (by decide)).2.2.2
      (some "offline") rfl⟩

/-! ## The status state machine -/

theorem recordOf_setDb_of_ne (sites : Sites) (siteId s : String) (db : Db) (k : Int)
    (h : s ≠ siteId) : recordOf (setDb sites siteId db) s k = recordOf sites s k := by
  simp [recordOf, setDb, h]

/-- The two ways a call of `getModuleStatus` can end: without a write, or with
the write of the record just read, its status moved from DOWNLOADED to
OUTDATED. -/
theorem getModuleStatus_cases (sites : Sites) (siteId : String) (id : Int)
    (revision timemodified : Option Int) :
    (getModuleStatus sites siteId id revision timemodified).2 = sites
      ∨ ∃ db m, sites siteId = Promise.resolved db ∧ dbGet db id = some m
          ∧ m.status = Status.FILEDOWNLOADED
          ∧ getModuleStatus sites siteId id revision timemodified
            = (Promise.resolved Status.FILEOUTDATED,
                setDb sites siteId (dbInsert db { m with status := Status.FILEOUTDATED })) := by
  cases hsite : sites siteId with
  | rejected e => left; simp only [getModuleStatus, hsite]
  | resolved db =>
    cases hget : dbGet db id with
    | none => left; simp only [getModuleStatus, hsite, hget]
    | some m =>
      by_cases hst : m.status = Status.FILEDOWNLOADED
      · by_cases hc : orZero revision > m.revision ∨ orZero timemodified > m.timemodified
        · right
          refine ⟨db, m, rfl, hget, hst, ?_⟩
          simp only [getModuleStatus, hsite, hget, hst, if_true, if_pos hc]
        · left; simp only [getModuleStatus, hsite, hget, hst, if_true, if_neg hc]
      · left; simp only [getModuleStatus, hsite, hget, if_neg hst]

/-- C19: through the evaluator, OUTDATED is reached only from DOWNLOADED. For
every state, every call of `getModuleStatus` and every record (site `s`, key
`k`): if its status after the call differs from its status before, then it is
the record of the queried module in the queried site, its status before was
DOWNLOADED and its status after is OUTDATED. `isModuleOutdated` leaves the
state, hence every status, as it was. And when the queried module has a
record, `getModuleStatus` resolves with the status that record has after the
call. -/
theorem status_changes_only_to_outdated (sites : Sites) (siteId : String) (id : Int)
    (revision timemodified : Option Int) (s : String) (k : Int) :
    ((recordOf (getModuleStatus sites siteId id revision timemodified).2 s k).map
          ModuleRecord.status ≠ (recordOf sites s k).map ModuleRecord.status →
        s = siteId ∧ k = id
          ∧ (recordOf sites s k).map ModuleRecord.status = some Status.FILEDOWNLOADED
          ∧ (recordOf (getModuleStatus sites siteId id revision timemodified).2 s k).map
              ModuleRecord.status = some Status.FILEOUTDATED)
      ∧ (isModuleOutdated sites siteId id revision timemodified).2 = sites
      ∧ (∀ m, recordOf sites siteId id = some m →
          ∃ m2, recordOf (getModuleStatus sites siteId id revision timemodified).2 siteId id
              = some m2
            ∧ (getModuleStatus sites siteId id revision timemodified).1
              = Promise.resolved m2.status) := by
  refine ⟨?_, ?_, ?_⟩
  · intro hdiff
    rcases getModuleStatus_cases sites siteId id revision timemodified with h | h
    · rw [h] at hdiff
      exact absurd rfl hdiff
    · obtain ⟨db, m, hsite, hget, hst, hcall⟩ := h
      have hid : m.id = id := dbGet_id hget
      rw [hcall] at hdiff ⊢
      simp only at hdiff ⊢
      by_cases hs : s = siteId
      · subst hs
        have hbefore : recordOf sites s k = dbGet db k := by
          simp only [recordOf, hsite]
        rw [recordOf_setDb_same] at hdiff ⊢
        rw [hbefore] at hdiff ⊢
        by_cases hk : k = id
        · subst hk
          have hafter : dbGet (dbInsert db { m with status := Status.FILEOUTDATED }) k
              = some { m with status := Status.FILEOUTDATED } := by
            rw [← hid]
            exact dbGet_dbInsert_self db { m with status := Status.FILEOUTDATED }
          rw [hafter, hget]
          exact ⟨rfl, rfl, by simp [hst], rfl⟩
        · have hne : k ≠ ({ m with status := Status.FILEOUTDATED } : ModuleRecord).id := by
            simpa [hid] using hk
          rw [dbGet_dbInsert_of_ne db _ k hne] at hdiff
          exact absurd rfl hdiff
      · rw [recordOf_setDb_of_ne _ _ _ _ _ hs] at hdiff
        exact absurd rfl hdiff
  · cases hsite : sites siteId with
    | rejected e => simp only [isModuleOutdated, hsite]
    | resolved db =>
      cases hget : dbGet db id with
      | none => simp only [isModuleOutdated, hsite, hget]
      | some m => simp only [isModuleOutdated, hsite, hget]
  · intro m hm
    cases hsite : sites siteId with
    | rejected e => simp [recordOf, hsite] at hm
    | resolved db =>
      have hget : dbGet db id = some m := by
        simpa [recordOf, hsite] using hm
      have hid : m.id = id := dbGet_id hget
      by_cases hst : m.status = Status.FILEDOWNLOADED
      · by_cases hc : orZero revision > m.revision ∨ orZero timemodified > m.timemodified
        · refine ⟨{ m with status := Status.FILEOUTDATED }, ?_, ?_⟩
          · simp only [getModuleStatus, hsite, hget, hst, if_true, if_pos hc]
            rw [recordOf_setDb_same]
            have := dbGet_dbInsert_self db { m with status := Status.FILEOUTDATED }
            simpa [hid] using this
          · simp only [getModuleStatus, hsite, hget, hst, if_true, if_pos hc]
        · refine ⟨m, ?_, ?_⟩
          · simp only [getModuleStatus, hsite, hget, hst, if_true, if_neg hc]
            exact hm
          · simp only [getModuleStatus, hsite, hget, hst, if_true, if_neg hc]
      · refine ⟨m, ?_, ?_⟩
        · simp only [getModuleStatus, hsite, hget, if_neg hst]
          exact hm
        · simp only [getModuleStatus, hsite, hget, if_neg hst]

/-- C19 at the sample store: the check of module 42 with candidate (4, 1000)
changes the status of its record, from DOWNLOADED to OUTDATED, and the call
resolves with the status the record has afterwards. -/
theorem status_changes_only_to_outdated_witness :
    (recordOf (oneSite sampleDb) "site1" 42).map ModuleRecord.status
        = some Status.FILEDOWNLOADED
      ∧ (recordOf (getModuleStatus (oneSite sampleDb) "site1" 42 (some 4) (some 1000)).2
          "site1" 42).map ModuleRecord.status = some Status.FILEOUTDATED
      ∧ ∃ m2, recordOf (getModuleStatus (oneSite sampleDb) "site1" 42 (some 4) (some 1000)).2
            "site1" 42 = some m2
          ∧ (getModuleStatus (oneSite sampleDb) "site1" 42 (some 4) (some 1000)).1
            = Promise.resolved m2.status :=
  ⟨((status_changes_only_to_outdated (oneSite sampleDb) "site1" 42 (some 4) (some 1000)
      "site1" 42).1 (by decide)).2.2.1,
   ((status_changes_only_to_outdated (oneSite sampleDb) "site1" 42 (some 4) (some 1000)
      "site1" 42).1 (by decide)).2.2.2,
   (status_changes_only_to_outdated (oneSite sampleDb) "site1" 42 (some 4) (some 1000)
      "site1" 42).2.2 sampleRecord (by decide)⟩

/-- C20: `isModuleOutdated` ignores the stored status. For two states whose
records of module `id` agree on revision and timemodified but differ in
status, and every candidate, `isModuleOutdated` resolves with the same
boolean. Hence on a record whose status is not DOWNLOADED (NOT_DOWNLOADED,
DOWNLOADING or already OUTDATED) and a larger candidate it resolves with
`true`, although `getModuleStatus` with the same arguments reports the stored
status and makes no transition. -/
theorem isModuleOutdated_ignores_status (siteId : String) (id : Int)
    (revision timemodified : Option Int) :
    (∀ (sites1 sites2 : Sites) (db1 db2 : Db) (m1 m2 : ModuleRecord),
        sites1 siteId = Promise.resolved db1 → dbGet db1 id = some m1 →
        sites2 siteId = Promise.resolved db2 → dbGet db2 id = some m2 →
        m1.revision = m2.revision → m1.timemodified = m2.timemodified →
        m1.status ≠ m2.status →
        (isModuleOutdated sites1 siteId id revision timemodified).1
          = (isModuleOutdated sites2 siteId id revision timemodified).1)
      ∧ (∀ (sites : Sites) (db : Db) (stored : ModuleRecord),
          sites siteId = Promise.resolved db → dbGet db id = some stored →
          stored.status ≠ Status.FILEDOWNLOADED →
          (orZero revision > stored.revision ∨ orZero timemodified > stored.timemodified) →
          (isModuleOutdated sites siteId id revision timemodified).1 = Promise.resolved true
            ∧ getModuleStatus sites siteId id revision timemodified
              = (Promise.resolved stored.status, sites)) := by
  constructor
  · intro sites1 sites2 db1 db2 m1 m2 hs1 hg1 hs2 hg2 hrev htime _
    simp only [isModuleOutdated, hs1, hg1, hs2, hg2, hrev, htime]
  · intro sites db stored hsite hget hstatus hnewer
    constructor
    · simp only [isModuleOutdated, hsite, hget, hnewer, decide_True]
    · simp only [getModuleStatus, hsite, hget, if_neg hstatus]

/-- C20 at module 7 of the sample store, whose record is OUTDATED with
watermark (1, 10): against a store holding the same watermark as
NOT_DOWNLOADED the boolean is the same, and with candidate (50, 5000) it is
`true` while `getModuleStatus` reports OUTDATED and writes nothing. -/
theorem isModuleOutdated_ignores_status_witness :
    (isModuleOutdated (oneSite sampleDb) "site1" 7 (some 50) (some 5000)).1
        = (isModuleOutdated
            (oneSite [{ id := 7, status := Status.FILENOTDOWNLOADED, revision := 1,
                        timemodified := 10, updated := 2 }])
            "site1" 7 (some 50) (some 5000)).1
      ∧ (isModuleOutdated (oneSite sampleDb) "site1" 7 (some 50) (some 5000)).1
        = Promise.resolved true
      ∧ getModuleStatus (oneSite sampleDb) "site1" 7 (some 50) (some 5000)
        = (Promise.resolved Status.FILEOUTDATED, oneSite sampleDb) :=
  ⟨(isModuleOutdated_ignores_status "site1" 7 (some 50) (some 5000)).1
      (oneSite sampleDb)
      (oneSite [{ id := 7, status := Status.FILENOTDOWNLOADED, revision := 1,
                  timemodified := 10, updated := 2 }])
      sampleDb
      [{ id := 7, status := Status.FILENOTDOWNLOADED, revision := 1,
         timemodified := 10, updated := 2 }]
      { id := 7, status := Status.FILEOUTDATED, revision := 1, timemodified := 10,
        updated := 1 }
      { id := 7, status := Status.FILENOTDOWNLOADED, revision := 1, timemodified := 10,
        updated := 2 }
      (by decide) (by decide) (by decide) (by decide) rfl rfl (by decide),
   ((isModuleOutdated_ignores_status "site1" 7 (some 50) (some 5000)).2
      (oneSite sampleDb) sampleDb
      { id := 7, status := Status.FILEOUTDATED, revision := 1, timemodified := 10,
        updated := 1 }
      (by decide) (by decide) (by decide) (by decide)).1,
   ((isModuleOutdated_ignores_status "site1" 7 (some 50) (some 5000)).2
      (oneSite sampleDb) sampleDb
      { id := 7, status := Status.FILEOUTDATED, revision := 1, timemodified := 10,
        updated := 1 }
      (by decide) (by decide) (by decide) (by decide)).2⟩

end MmCourse
